import Mathlib

set_option maxHeartbeats 1000000

/-
Shallow embedding of the browser credential-cache manager found in
src/node/ApiUsersMongoNode+Front/ApiNodeMongo/server.js (the
BrowserCacheManager class).  Storage backends are modelled as association
lists from keys to cache values.  A value stored in a backend is a raw
string in the source; here it is represented by its parse class: a plain
string (a string that does not decode as structured data), a structured
object (represented by the list of its field names), an encoded array of
strings (the account-key index slot), the token-key-index record, or an
encoded authorization-code request.  String puns between classes (for
example a client id that happens to look like an encoded object) are below
this abstraction and are not modelled.  The empty string is falsy in the
source language, so reads treat a stored empty string like an absent entry;
the model mirrors this with an explicit truthiness test.
-/
/-- Interaction types tagged inside a request state blob. -/
inductive InteractionType where
  | redirect
  | popup
  | silent
deriving DecidableEq
/-- Credential categories of the token key index. -/
inductive CredentialType where
  | idToken
  | accessToken
  | refreshToken
deriving DecidableEq
/-- Configured storage location for a logical cache scope. -/
inductive BrowserCacheLocation where
  | localStorage
  | sessionStorage
  | memoryStorage
deriving DecidableEq
/-- Typed errors raised by the cache manager (BrowserAuthError /
ClientAuthError codes used in the translated methods). -/
inductive AuthError where
  | interactionInProgress
  | noTokenRequestCacheError
  | unableToParseTokenRequestCacheError
  | noCachedAuthorityError
  | unexpectedCredentialType
deriving DecidableEq
/-- An authorization-code request as cached by the request-parameter slot.
Only the authority field is observable in the translated methods. -/
structure CodeRequest where
  authority : Option String
deriving DecidableEq
/-- The token-key-index record: one list of live credential keys per
category. -/
structure TokenKeys where
  idToken : List String
  accessToken : List String
  refreshToken : List String
deriving DecidableEq
/-- The parse class of a raw string stored in a backend. -/
inductive CacheValue where
  | str (s : String)
  | obj (fields : List String)
  | arr (elems : List String)
  | tokenKeysRec (t : TokenKeys)
  | codeReq (r : CodeRequest)
deriving DecidableEq
/-- The raw string a cache value stands for.  Serialized structured values
are never the empty string. -/
def CacheValue.serialize : CacheValue → String
  | .str s => s
  | .obj fields => "\x7b" ++ String.intercalate "," fields ++ "\x7d"
  | .arr elems => "[" ++ String.intercalate "," elems ++ "]"
  | .tokenKeysRec t =>
      "\x7b" ++ String.intercalate "," t.idToken ++ ";"
        ++ String.intercalate "," t.accessToken ++ ";"
        ++ String.intercalate "," t.refreshToken ++ "\x7d"
  | .codeReq r => "b64." ++ (r.authority.getD "")
/-- Truthiness of a stored value, as tested by the source with `if (value)`:
the empty string is falsy, every other stored string is truthy (all
serialized structured values are non-empty strings). -/
def CacheValue.truthy : CacheValue → Bool
  | .str s => s ≠ ""
  | _ => true
/-- A backend read followed by the source's truthiness test: an absent entry
and a stored empty string are both treated as no value. -/
def truthyGet (v : Option CacheValue) : Option CacheValue :=
  match v with
  | some x => if x.truthy then some x else none
  | none => none
/-- Whether `needle` occurs as a contiguous run inside `l`
(the model of JavaScript's `indexOf(...) !== -1` on strings). -/
def charsInfix (needle : List Char) : List Char → Bool
  | [] => needle.isEmpty
  | c :: rest => needle.isPrefixOf (c :: rest) || charsInfix needle rest
/-- Substring containment on strings (`hay.indexOf(needle) !== -1`). -/
def strContains (hay needle : String) : Bool := charsInfix needle.data hay.data
/-- `StringUtils.startsWith` on strings. -/
def strStartsWith (s p : String) : Bool := p.data.isPrefixOf s.data
/-- A storage backend: an association list from keys to stored values.
Modelled from the spec: the Storage Backend contract is
get / set / remove / keys over one physical medium (the concrete backend
classes are not part of the translated file). -/
abbrev Store := List (String × CacheValue)
/-- Backend read: the first entry with the given key, if any. -/
def Store.getItem : Store → String → Option CacheValue
  | [], _ => none
  | e :: s, k => if e.1 = k then some e.2 else Store.getItem s k
/-- Backend removal: drops every entry for the key. -/
def Store.removeItem : Store → String → Store
  | [], _ => []
  | e :: s, k =>
    if e.1 = k then Store.removeItem s k else e :: Store.removeItem s k
/-- Backend write: replaces any existing entry for the key. -/
def Store.setItem (s : Store) (k : String) (v : CacheValue) : Store :=
  Store.removeItem s k ++ [(k, v)]
/-- Backend key enumeration. -/
def Store.getKeys (s : Store) : List String := s.map (fun e => e.1)
/-- Cache configuration fixed at construction (`Required<CacheOptions>`,
restricted to the options read by the translated methods). -/
structure CacheConfig where
  cacheLocation : BrowserCacheLocation
  temporaryCacheLocation : BrowserCacheLocation
  storeAuthStateInCookie : Bool
  secureCookies : Bool
deriving DecidableEq
/-- The immutable identity of a BrowserCacheManager instance. -/
structure Manager where
  clientId : String
  cacheConfig : CacheConfig
deriving DecidableEq
/-- The mutable storage state of a BrowserCacheManager: the persistent
browser storage, the temporary storage, the in-memory internal storage and
the cookie jar. -/
structure CacheState where
  browserStorage : Store
  temporaryCacheStorage : Store
  internalStorage : Store
  cookieStorage : Store
deriving DecidableEq
/-- The state of a freshly constructed cache manager over empty media. -/
def emptyCacheState : CacheState := ⟨[], [], [], []⟩
/-- The account filter triple; only the home-account-id is read by the
translated methods. -/
structure AccountInfo where
  homeAccountId : String
deriving DecidableEq
/-- Constants.CACHE_PREFIX. -/
def cacheKeyBase : String := "msal"
/-- StaticCacheKeys.ACCOUNT_KEYS: the fixed account-key-index slot. -/
def ACCOUNT_KEYS : String := "msal.account.keys"
/-- StaticCacheKeys.TOKEN_KEYS: stem of the per-client token-key-index slot. -/
def TOKEN_KEYS : String := "msal.token.keys"
/-- TemporaryCacheKeys.AUTHORITY. -/
def AUTHORITY_KEY : String := "authority"
/-- TemporaryCacheKeys.NONCE_IDTOKEN. -/
def NONCE_KEY : String := "nonce.id_token"
/-- TemporaryCacheKeys.REQUEST_STATE. -/
def REQUEST_STATE_KEY : String := "request.state"
/-- TemporaryCacheKeys.REQUEST_PARAMS. -/
def REQUEST_PARAMS_KEY : String := "request.params"
/-- TemporaryCacheKeys.ORIGIN_URI. -/
def ORIGIN_URI_KEY : String := "request.origin"
/-- TemporaryCacheKeys.URL_HASH. -/
def URL_HASH_KEY : String := "urlHash"
/-- TemporaryCacheKeys.CORRELATION_ID. -/
def CORRELATION_ID_KEY : String := "correlation.id"
/-- TemporaryCacheKeys.CCS_CREDENTIAL. -/
def CCS_CREDENTIAL_KEY : String := "ccs.credential"
/-- TemporaryCacheKeys.NATIVE_REQUEST. -/
def NATIVE_REQUEST_KEY : String := "native.request"
/-- TemporaryCacheKeys.INTERACTION_STATUS_KEY. -/
def INTERACTION_STATUS_KEY : String := "interaction.status"
/-- The substring marking app-metadata entries. -/
def APP_METADATA_MARK : String := "appmetadata"
/-- The fixed, client-id-independent key of the interaction-in-progress
lock: CACHE_PREFIX dot INTERACTION_STATUS_KEY. -/
def interactionStatusFullKey : String :=
  cacheKeyBase ++ "." ++ INTERACTION_STATUS_KEY
/-- The token-key-index slot for a given client id. -/
def tokenKeysSlot (m : Manager) : String := TOKEN_KEYS ++ "." ++ m.clientId
/-- Characters of a string up to (excluding) the first colon. -/
def untilColon : List Char → List Char
  | [] => []
  | c :: cs => if c = ':' then [] else c :: untilColon cs
/-- Characters of a string after the first colon (empty if no colon). -/
def afterColon : List Char → List Char
  | [] => []
  | c :: cs => if c = ':' then cs else afterColon cs
/-- Modelled from the spec: a request state blob embeds a unique per-request
id (ProtocolUtils.parseRequestState is not part of the translated file).
The model fixes the blob layout as the id, optionally followed by a colon
and an interaction-type tag; the embedded id is everything before the first
colon. -/
def stateId (s : String) : String := String.mk (untilColon s.data)
/-- The interaction-type tag embedded in a state blob under the modelled
layout: the segment between the first and second colon. -/
def stateTag (s : String) : String := String.mk (untilColon (afterColon s.data))
/-- Modelled from the spec: extractBrowserRequestState decodes the stored
state blob and yields the embedded interaction-type tag, or nothing for an
empty or untagged blob. -/
def extractBrowserRequestState (s : String) : Option InteractionType :=
  if s = "" then none
  else if stateTag s = "redirect" then some .redirect
  else if stateTag s = "popup" then some .popup
  else if stateTag s = "silent" then some .silent
  else none
/-- validateAndParseJson on a stored value: structured values (objects,
arrays, the token-key record — all of object type once decoded) parse to
themselves; plain strings and the base64-encoded request text either fail
to decode or decode to a non-object and yield nothing. -/
def validateAndParseJson : CacheValue → Option CacheValue
  | .str _ => none
  | .codeReq _ => none
  | v => some v
/-- Modelled from the spec: entity validators are shape checks requiring
the category's discriminator fields on a decoded object.  Field list of an
account entity. -/
def accountRequiredFields : List String :=
  ["homeAccountId", "environment", "realm", "localAccountId", "username",
   "authorityType"]
/-- Modelled from the spec: discriminator fields of an id-token entity. -/
def idTokenRequiredFields : List String :=
  ["homeAccountId", "environment", "credentialType", "realm", "clientId",
   "secret"]
/-- Modelled from the spec: discriminator fields of an access-token entity. -/
def accessTokenRequiredFields : List String :=
  ["homeAccountId", "environment", "credentialType", "realm", "clientId",
   "secret", "target"]
/-- Modelled from the spec: discriminator fields of a refresh-token entity. -/
def refreshTokenRequiredFields : List String :=
  ["homeAccountId", "environment", "credentialType", "clientId", "secret"]
/-- Whether a decoded value carries all required fields of a category. -/
def hasRequiredFields (required : List String) : CacheValue → Bool
  | .obj fields => required.all (fun f => fields.contains f)
  | _ => false
/-- AccountEntity.isAccountEntity (modelled from the spec as a
discriminator-field shape check). -/
def isAccountEntity (v : CacheValue) : Bool :=
  hasRequiredFields accountRequiredFields v
/-- CacheHelpers.isIdTokenEntity (modelled from the spec). -/
def isIdTokenEntity (v : CacheValue) : Bool :=
  hasRequiredFields idTokenRequiredFields v
/-- CacheHelpers.isAccessTokenEntity (modelled from the spec). -/
def isAccessTokenEntity (v : CacheValue) : Bool :=
  hasRequiredFields accessTokenRequiredFields v
/-- CacheHelpers.isRefreshTokenEntity (modelled from the spec). -/
def isRefreshTokenEntity (v : CacheValue) : Bool :=
  hasRequiredFields refreshTokenRequiredFields v
/-- Whether a raw key string would itself decode as structured data
(JSON object or array); generateCacheKey leaves such keys to be
re-serialized.  Modelled by the leading character of the key. -/
def strLooksStructured (s : String) : Bool :=
  s.data.head? = some (Char.ofNat 123) || s.data.head? = some (Char.ofNat 91)
/-- JSON.stringify of a raw string key. -/
def jsonQuote (s : String) : String := "\"" ++ s ++ "\""
/-- generateCacheKey: structured keys are re-serialized as-is; keys already
carrying the fixed cache stem are returned unchanged; every other key is
namespaced as stem.clientId.key. -/
def generateCacheKey (m : Manager) (key : String) : String :=
  if strLooksStructured key then jsonQuote key
  else if strStartsWith key cacheKeyBase then key
  else cacheKeyBase ++ "." ++ m.clientId ++ "." ++ key
/-- generateAuthorityKey: the authority slot derived from the embedded
request id of a state blob. -/
def generateAuthorityKey (m : Manager) (stateString : String) : String :=
  generateCacheKey m (AUTHORITY_KEY ++ "." ++ stateId stateString)
/-- generateNonceKey: the nonce slot derived from the embedded request id. -/
def generateNonceKey (m : Manager) (stateString : String) : String :=
  generateCacheKey m (NONCE_KEY ++ "." ++ stateId stateString)
/-- generateStateKey: the request-state slot derived from the embedded
request id. -/
def generateStateKey (m : Manager) (stateString : String) : String :=
  generateCacheKey m (REQUEST_STATE_KEY ++ "." ++ stateId stateString)
/-- getTemporaryCache: cookie value first when storeAuthStateInCookie is
enabled, then the temporary backend, then — when the persistent location is
localStorage — the persistent backend (items set by old versions); falsy
values count as absent at every stage. -/
def getTemporaryCache (m : Manager) (st : CacheState) (cacheKey : String)
    (generateKey : Bool) : Option CacheValue :=
  let key := if generateKey then generateCacheKey m cacheKey else cacheKey
  let cookieHit :=
    if m.cacheConfig.storeAuthStateInCookie then
      truthyGet (st.cookieStorage.getItem key)
    else none
  match cookieHit with
  | some c => some c
  | none =>
    match truthyGet (st.temporaryCacheStorage.getItem key) with
    | some v => some v
    | none =>
      if m.cacheConfig.cacheLocation = BrowserCacheLocation.localStorage then
        truthyGet (st.browserStorage.getItem key)
      else none
/-- setTemporaryCache: writes the temporary backend and, when
storeAuthStateInCookie is enabled, the cookie jar. -/
def setTemporaryCache (m : Manager) (st : CacheState) (cacheKey : String)
    (value : CacheValue) (generateKey : Bool) : CacheState :=
  let key := if generateKey then generateCacheKey m cacheKey else cacheKey
  let st1 := { st with
    temporaryCacheStorage := st.temporaryCacheStorage.setItem key value }
  if m.cacheConfig.storeAuthStateInCookie then
    { st1 with cookieStorage := st1.cookieStorage.setItem key value }
  else st1
/-- removeTemporaryItem: removes the entry from the temporary backend and,
when storeAuthStateInCookie is enabled, from the cookie jar. -/
def removeTemporaryItem (m : Manager) (st : CacheState) (key : String) :
    CacheState :=
  let st1 := { st with
    temporaryCacheStorage := st.temporaryCacheStorage.removeItem key }
  if m.cacheConfig.storeAuthStateInCookie then
    { st1 with cookieStorage := st1.cookieStorage.removeItem key }
  else st1
/-- Modelled from the spec: CacheHelpers.getAccountKeys decodes the
account-key-index slot, defaulting to the empty list on absence or
corruption. -/
def getAccountKeys (st : CacheState) : List String :=
  match st.browserStorage.getItem ACCOUNT_KEYS with
  | some (.arr xs) => xs
  | _ => []
/-- Modelled from the spec: CacheHelpers.getTokenKeys decodes the per-client
token-key-index slot, defaulting to empty lists on absence or corruption. -/
def getTokenKeys (m : Manager) (st : CacheState) : TokenKeys :=
  match st.browserStorage.getItem (tokenKeysSlot m) with
  | some (.tokenKeysRec t) => t
  | _ => ⟨[], [], []⟩
/-- addAccountKeyToMap: append the key to the account-key index unless it is
already present. -/
def addAccountKeyToMap (st : CacheState) (key : String) : CacheState :=
  let accountKeys := getAccountKeys st
  if accountKeys.contains key then st
  else { st with browserStorage :=
    st.browserStorage.setItem ACCOUNT_KEYS (.arr (accountKeys ++ [key])) }
/-- removeAccountKeyFromMap: splice out the first occurrence of the key and
persist, or leave the state alone when the key is not indexed. -/
def removeAccountKeyFromMap (st : CacheState) (key : String) : CacheState :=
  let accountKeys := getAccountKeys st
  if accountKeys.contains key then
    { st with browserStorage :=
      st.browserStorage.setItem ACCOUNT_KEYS (.arr (accountKeys.erase key)) }
  else st
/-- addTokenKey: append the key to the category's list unless already
present, then persist the record unconditionally. -/
def addTokenKey (m : Manager) (st : CacheState) (key : String)
    (ty : CredentialType) : CacheState :=
  let t := getTokenKeys m st
  let t' : TokenKeys :=
    match ty with
    | .idToken =>
      if t.idToken.contains key then t
      else { t with idToken := t.idToken ++ [key] }
    | .accessToken =>
      if t.accessToken.contains key then t
      else { t with accessToken := t.accessToken ++ [key] }
    | .refreshToken =>
      if t.refreshToken.contains key then t
      else { t with refreshToken := t.refreshToken ++ [key] }
  { st with browserStorage :=
    st.browserStorage.setItem (tokenKeysSlot m) (.tokenKeysRec t') }
/-- removeTokenKey: splice out the first occurrence of the key from the
category's list (a miss changes nothing), then persist the record
unconditionally. -/
def removeTokenKey (m : Manager) (st : CacheState) (key : String)
    (ty : CredentialType) : CacheState :=
  let t := getTokenKeys m st
  let t' : TokenKeys :=
    match ty with
    | .idToken => { t with idToken := t.idToken.erase key }
    | .accessToken => { t with accessToken := t.accessToken.erase key }
    | .refreshToken => { t with refreshToken := t.refreshToken.erase key }
  { st with browserStorage :=
    st.browserStorage.setItem (tokenKeysSlot m) (.tokenKeysRec t') }
/-- getAccount: read the backing entry; on a miss or a value that does not
decode to an account-shaped object, purge the key from the account index
and yield nothing; otherwise yield the decoded entity.  The function is
total: no error can be raised on this path. -/
def getAccount (st : CacheState) (accountKey : String) :
    CacheState × Option CacheValue :=
  match truthyGet (st.browserStorage.getItem accountKey) with
  | none => (removeAccountKeyFromMap st accountKey, none)
  | some v =>
    match validateAndParseJson v with
    | none => (removeAccountKeyFromMap st accountKey, none)
    | some parsed =>
      if isAccountEntity parsed then (st, some parsed)
      else (removeAccountKeyFromMap st accountKey, none)
/-- getIdTokenCredential: read the backing entry; on a miss or a value that
does not decode to an id-token-shaped object, purge the key from the
id-token index and yield nothing. -/
def getIdTokenCredential (m : Manager) (st : CacheState) (idTokenKey : String) :
    CacheState × Option CacheValue :=
  match truthyGet (st.browserStorage.getItem idTokenKey) with
  | none => (removeTokenKey m st idTokenKey .idToken, none)
  | some v =>
    match validateAndParseJson v with
    | none => (removeTokenKey m st idTokenKey .idToken, none)
    | some parsed =>
      if isIdTokenEntity parsed then (st, some parsed)
      else (removeTokenKey m st idTokenKey .idToken, none)
/-- getAccessTokenCredential: as getIdTokenCredential, for the access-token
category. -/
def getAccessTokenCredential (m : Manager) (st : CacheState)
    (accessTokenKey : String) : CacheState × Option CacheValue :=
  match truthyGet (st.browserStorage.getItem accessTokenKey) with
  | none => (removeTokenKey m st accessTokenKey .accessToken, none)
  | some v =>
    match validateAndParseJson v with
    | none => (removeTokenKey m st accessTokenKey .accessToken, none)
    | some parsed =>
      if isAccessTokenEntity parsed then (st, some parsed)
      else (removeTokenKey m st accessTokenKey .accessToken, none)
/-- getRefreshTokenCredential: as getIdTokenCredential, for the
refresh-token category. -/
def getRefreshTokenCredential (m : Manager) (st : CacheState)
    (refreshTokenKey : String) : CacheState × Option CacheValue :=
  match truthyGet (st.browserStorage.getItem refreshTokenKey) with
  | none => (removeTokenKey m st refreshTokenKey .refreshToken, none)
  | some v =>
    match validateAndParseJson v with
    | none => (removeTokenKey m st refreshTokenKey .refreshToken, none)
    | some parsed =>
      if isRefreshTokenEntity parsed then (st, some parsed)
      else (removeTokenKey m st refreshTokenKey .refreshToken, none)
/-- removeAccount: backing-store removal of the entity (the inherited
removal is modelled from the spec as deletion of the backing entry),
followed by removal of the key from the account index. -/
def removeAccount (st : CacheState) (key : String) : CacheState :=
  let st1 := { st with browserStorage := st.browserStorage.removeItem key }
  removeAccountKeyFromMap st1 key
/-- removeIdToken: backing-store removal (modelled from the spec), then
removal of the key from the id-token index. -/
def removeIdToken (m : Manager) (st : CacheState) (key : String) : CacheState :=
  let st1 := { st with browserStorage := st.browserStorage.removeItem key }
  removeTokenKey m st1 key .idToken
/-- removeAccessToken: backing-store removal (modelled from the spec), then
removal of the key from the access-token index. -/
def removeAccessToken (m : Manager) (st : CacheState) (key : String) :
    CacheState :=
  let st1 := { st with browserStorage := st.browserStorage.removeItem key }
  removeTokenKey m st1 key .accessToken
/-- removeRefreshToken: backing-store removal (modelled from the spec), then
removal of the key from the refresh-token index. -/
def removeRefreshToken (m : Manager) (st : CacheState) (key : String) :
    CacheState :=
  let st1 := { st with browserStorage := st.browserStorage.removeItem key }
  removeTokenKey m st1 key .refreshToken
/-- getInteractionInProgress: read the global lock slot through the
temporary-cache read path. -/
def getInteractionInProgress (m : Manager) (st : CacheState) :
    Option CacheValue :=
  getTemporaryCache m st interactionStatusFullKey false
/-- setInteractionInProgress: acquiring fails with a typed conflict error
when the lock read is truthy and otherwise stores this client id; releasing
removes the lock entry only when the lock read equals this client id and
otherwise changes nothing. -/
def setInteractionInProgress (m : Manager) (st : CacheState)
    (inProgress : Bool) : Except AuthError CacheState :=
  let key := interactionStatusFullKey
  if inProgress then
    match getInteractionInProgress m st with
    | some _ => .error .interactionInProgress
    | none => .ok (setTemporaryCache m st key (.str m.clientId) false)
  else
    if (match getInteractionInProgress m st with
        | some v => v.serialize == m.clientId
        | none => false) then
      .ok (removeTemporaryItem m st key)
    else .ok st
/-- getCachedAuthority: resolve the stored state blob for the given cached
state, derive the authority key from it and read the stored authority. -/
def getCachedAuthority (m : Manager) (st : CacheState) (cachedState : String) :
    Option CacheValue :=
  match getTemporaryCache m st (generateStateKey m cachedState) false with
  | none => none
  | some stateV =>
    getTemporaryCache m st (generateAuthorityKey m stateV.serialize) false
/-- updateCacheEntries: persist the state blob, the nonce and the authority
under their derived keys, then the routing-hint record keyed by the
account's home-account-id or, absent an account, by a non-empty login
hint. -/
def updateCacheEntries (m : Manager) (st : CacheState) (state nonce : String)
    (authorityInstance : String) (loginHint : String)
    (account : Option AccountInfo) : CacheState :=
  let st1 := setTemporaryCache m st (generateStateKey m state) (.str state) false
  let st2 := setTemporaryCache m st1 (generateNonceKey m state) (.str nonce) false
  let st3 := setTemporaryCache m st2 (generateAuthorityKey m state)
    (.str authorityInstance) false
  match account with
  | some _ =>
    setTemporaryCache m st3 CCS_CREDENTIAL_KEY (.obj ["credential", "type"]) true
  | none =>
    if loginHint ≠ "" then
      setTemporaryCache m st3 CCS_CREDENTIAL_KEY (.obj ["credential", "type"]) true
    else st3
/-- The scan phase of resetRequestCache: remove every temporary entry whose
key contains the given state blob as a substring. -/
def resetRequestCacheScan (m : Manager) (st : CacheState) (state : String) :
    CacheState :=
  (st.temporaryCacheStorage.getKeys).foldl
    (fun acc k => if strContains k state then removeTemporaryItem m acc k else acc)
    st
/-- Everything resetRequestCache does before the final lock release: for a
non-empty state blob, the substring scan and the removal of the derived
state, nonce and authority entries; then, unconditionally, removal of the
six generic per-flow entries. -/
def resetRequestCacheBody (m : Manager) (st : CacheState) (state : String) :
    CacheState :=
  let st1 :=
    if state ≠ "" then
      let sA := resetRequestCacheScan m st state
      let sB := removeTemporaryItem m sA (generateStateKey m state)
      let sC := removeTemporaryItem m sB (generateNonceKey m state)
      removeTemporaryItem m sC (generateAuthorityKey m state)
    else st
  let st2 := removeTemporaryItem m st1 (generateCacheKey m REQUEST_PARAMS_KEY)
  let st3 := removeTemporaryItem m st2 (generateCacheKey m ORIGIN_URI_KEY)
  let st4 := removeTemporaryItem m st3 (generateCacheKey m URL_HASH_KEY)
  let st5 := removeTemporaryItem m st4 (generateCacheKey m CORRELATION_ID_KEY)
  let st6 := removeTemporaryItem m st5 (generateCacheKey m CCS_CREDENTIAL_KEY)
  removeTemporaryItem m st6 (generateCacheKey m NATIVE_REQUEST_KEY)
/-- resetRequestCache: the body above followed by the conditional release of
the interaction lock. -/
def resetRequestCache (m : Manager) (st : CacheState) (state : String) :
    Except AuthError CacheState :=
  setInteractionInProgress m (resetRequestCacheBody m st state) false
/-- One iteration of cleanRequestByInteractionType's key loop: skip keys
outside the request-state namespace and falsy stored values; otherwise
decode the stored blob and, when its tag matches, reset the request cache
for that blob. -/
def cleanRequestStep (m : Manager) (interactionType : InteractionType)
    (acc : CacheState) (key : String) : Except AuthError CacheState :=
  if strContains key REQUEST_STATE_KEY then
    match truthyGet (acc.temporaryCacheStorage.getItem key) with
    | none => .ok acc
    | some stateValue =>
      match extractBrowserRequestState stateValue.serialize with
      | some it =>
        if it = interactionType then
          resetRequestCache m acc stateValue.serialize
        else .ok acc
      | none => .ok acc
  else .ok acc
/-- The key loop of cleanRequestByInteractionType over a snapshot of the
temporary keys. -/
def cleanRequestLoop (m : Manager) (st : CacheState)
    (interactionType : InteractionType) : Except AuthError CacheState :=
  (st.temporaryCacheStorage.getKeys).foldlM (cleanRequestStep m interactionType) st
/-- cleanRequestByInteractionType: reset every request whose stored state
blob carries the given interaction type, then release the interaction
lock. -/
def cleanRequestByInteractionType (m : Manager) (st : CacheState)
    (interactionType : InteractionType) : Except AuthError CacheState := do
  let st1 ← cleanRequestLoop m st interactionType
  setInteractionInProgress m st1 false
/-- Truthiness of the optional authority field of a decoded request. -/
def truthyOptStr : Option String → Bool
  | some s => s ≠ ""
  | none => false
/-- getCachedRequest: absent request parameters are a typed fatal error; an
undecodable stored value is a typed fatal error; after decoding, the cached
entry is removed and, when the request carries no authority, the cached
authority for the given state is substituted or, if that too is absent, a
typed fatal error is raised. -/
def getCachedRequest (m : Manager) (st : CacheState) (state : String) :
    Except AuthError (CacheState × CodeRequest) :=
  match getTemporaryCache m st REQUEST_PARAMS_KEY true with
  | none => .error .noTokenRequestCacheError
  | some v =>
    match v with
    | .codeReq r =>
      let st1 := removeTemporaryItem m st (generateCacheKey m REQUEST_PARAMS_KEY)
      if truthyOptStr r.authority then .ok (st1, r)
      else
        match getTemporaryCache m st1 (generateAuthorityKey m state) false with
        | none => .error .noCachedAuthorityError
        | some a => .ok (st1, { r with authority := some a.serialize })
    | _ => .error .unableToParseTokenRequestCacheError
/-- Modelled from the spec: the inherited removeAllAccounts used by clear
removes every account listed in the account-key index together with its
associated credentials; with every account removed, all credentials listed
in the token-key indexes are removed, and both index slots are left
empty. -/
def removeAllAccounts (m : Manager) (st : CacheState) : CacheState :=
  let aks := getAccountKeys st
  let t := getTokenKeys m st
  let doomed := aks ++ t.idToken ++ t.accessToken ++ t.refreshToken
  let b1 := doomed.foldl (fun acc k => Store.removeItem acc k) st.browserStorage
  let b2 := (b1.setItem ACCOUNT_KEYS (.arr [])).setItem (tokenKeysSlot m)
    (.tokenKeysRec ⟨[], [], []⟩)
  { st with browserStorage := b2 }
/-- Modelled from the spec: the inherited removeAppMetadata used by clear
removes every persistent entry whose key carries the app-metadata marker. -/
def removeAppMetadata (st : CacheState) : CacheState :=
  let b :=
    (st.browserStorage.getKeys).foldl
      (fun acc k =>
        if strContains k APP_METADATA_MARK then Store.removeItem acc k else acc)
      st.browserStorage
  { st with browserStorage := b }
/-- The key filter of clear: entries whose key contains the fixed cache
stem or the client id belong to this library and are removed. -/
def clearCond (m : Manager) (k : String) : Bool :=
  strContains k cacheKeyBase || strContains k m.clientId
/-- The temporary-scope scan of clear: removes every temporary entry whose
key matches the clear filter (cookies included via removeTemporaryItem). -/
def clearTempScan (m : Manager) (st : CacheState) : CacheState :=
  (st.temporaryCacheStorage.getKeys).foldl
    (fun acc k =>
      if clearCond m k then removeTemporaryItem m acc k else acc)
    st
/-- The persistent-scope scan of clear: removes every remaining persistent
entry whose key matches the clear filter. -/
def clearBrowserScan (m : Manager) (b : Store) : Store :=
  (b.getKeys).foldl
    (fun acc k => if clearCond m k then Store.removeItem acc k else acc)
    b
/-- clear: remove all accounts and credentials and the app-metadata entries,
then every temporary entry whose key contains the fixed cache stem or the
client id, then every remaining persistent entry whose key contains the
fixed cache stem or the client id, and finally all in-memory entries. -/
def clear (m : Manager) (st : CacheState) : CacheState :=
  let st1 := removeAllAccounts m st
  let st2 := removeAppMetadata st1
  let st3 := clearTempScan m st2
  let st4 := { st3 with browserStorage := clearBrowserScan m st3.browserStorage }
  { st4 with internalStorage := [] }
/-- Decidable equality for Except results, used to state concrete runs of
the fallible operations. -/
instance {ε α : Type} [DecidableEq ε] [DecidableEq α] :
    DecidableEq (Except ε α) := fun a b =>
  match a, b with
  | .ok x, .ok y =>
    if h : x = y then .isTrue (by rw [h]) else .isFalse (by simp [h])
  | .error e, .error f =>
    if h : e = f then .isTrue (by rw [h]) else .isFalse (by simp [h])
  | .ok _, .error _ => .isFalse (by simp)
  | .error _, .ok _ => .isFalse (by simp)
/-- The pure index update performed by addTokenKey on the decoded record. -/
def tkInsert (t : TokenKeys) (k : String) : CredentialType → TokenKeys
  | .idToken =>
    if t.idToken.contains k then t else { t with idToken := t.idToken ++ [k] }
  | .accessToken =>
    if t.accessToken.contains k then t
    else { t with accessToken := t.accessToken ++ [k] }
  | .refreshToken =>
    if t.refreshToken.contains k then t
    else { t with refreshToken := t.refreshToken ++ [k] }
/-- The pure index update performed by removeTokenKey on the decoded record. -/
def tkErase (t : TokenKeys) (k : String) : CredentialType → TokenKeys
  | .idToken => { t with idToken := t.idToken.erase k }
  | .accessToken => { t with accessToken := t.accessToken.erase k }
  | .refreshToken => { t with refreshToken := t.refreshToken.erase k }
/-- Claim C2: acquiring the interaction lock fails with the typed conflict
error whenever the lock read yields a value, regardless of which client id
owns it, and otherwise stores this instance's client id under the lock key;
releasing removes the lock entry only when the read value equals this
instance's client id and otherwise leaves the whole state unchanged
(a silent no-op, no error). -/
def mgrDefault : Manager := ⟨"c", ⟨.memoryStorage, .memoryStorage, false, false⟩⟩
/-- A backing read of the key that yields no value, a value that does not
decode as a structured object, or a decoded object failing the category's
shape check. -/
def corruptRead (s : Store) (key : String) (check : CacheValue → Bool) : Prop :=
  truthyGet (s.getItem key) = none ∨
  (∃ v, truthyGet (s.getItem key) = some v ∧
    (validateAndParseJson v = none ∨
     ∃ p, validateAndParseJson v = some p ∧ check p = false))
/-- The list of the token-key record belonging to a credential category. -/
def tkField (t : TokenKeys) : CredentialType → List String
  | .idToken => t.idToken
  | .accessToken => t.accessToken
  | .refreshToken => t.refreshToken
def mgrCookie : Manager := ⟨"c", ⟨.localStorage, .memoryStorage, true, false⟩⟩
def c10State : CacheState :=
  ⟨[("k", .str "pv")], [("k", .str "tv")], [], [("k", .str "cv")]⟩
/-- The nine keys explicitly removed by resetRequestCache for a non-empty
state blob: the three derived per-request keys and the six generic per-flow
keys. -/
def resetRemovedKeys (m : Manager) (state : String) : List String :=
  [generateStateKey m state, generateNonceKey m state,
   generateAuthorityKey m state,
   generateCacheKey m REQUEST_PARAMS_KEY, generateCacheKey m ORIGIN_URI_KEY,
   generateCacheKey m URL_HASH_KEY, generateCacheKey m CORRELATION_ID_KEY,
   generateCacheKey m CCS_CREDENTIAL_KEY, generateCacheKey m NATIVE_REQUEST_KEY]
def c4CounterState : CacheState := ⟨[], [("foo.id1.bar", .str "v")], [], []⟩
def c4WitnessState : CacheState := ⟨[], [("xs1y", .str "w")], [], []⟩
def mgrLocal : Manager := ⟨"c", ⟨.localStorage, .memoryStorage, false, false⟩⟩
def c3CounterState : CacheState :=
  ⟨[(generateStateKey mgrLocal "S", .str "S"),
    (generateAuthorityKey mgrLocal "S", .str "A0")], [], [], []⟩
def c9WitnessState : CacheState :=
  ⟨[], [(interactionStatusFullKey, .str "c")], [], []⟩
def c5CounterState : CacheState :=
  ⟨[(ACCOUNT_KEYS, .arr ["uid-env-realm"]),
    ("uid-env-realm", .obj accountRequiredFields),
    ("unrelated", .str "x")], [], [], []⟩
theorem Store.getItem_removeItem_self (s : Store) (k : String) :
    (s.removeItem k).getItem k = none := by
  induction s with
  | nil => rfl
  | cons e s ih =>
    by_cases hek : e.1 = k <;> simp [Store.removeItem, Store.getItem, hek, ih]
theorem Store.getItem_removeItem_ne (s : Store) (k k' : String) (h : k' ≠ k) :
    (s.removeItem k).getItem k' = s.getItem k' := by
  induction s with
  | nil => rfl
  | cons e s ih =>
    have hkk : ¬ k = k' := fun hh => h hh.symm
    by_cases hek : e.1 = k
    · have hne : ¬ e.1 = k' := fun he => h ((he.symm.trans hek))
      simp [Store.removeItem, Store.getItem, hek, hne, hkk, h, ih]
    · by_cases hk' : e.1 = k' <;>
        simp [Store.removeItem, Store.getItem, hek, hk', hkk, h, ih]
@[simp]
theorem Store.getItem_removeItem (s : Store) (k k' : String) :
    (s.removeItem k).getItem k' = if k' = k then none else s.getItem k' := by
  by_cases h : k' = k
  · subst h; simp [Store.getItem_removeItem_self]
  · simp [Store.getItem_removeItem_ne s k k' h, h]
theorem Store.getItem_setItem_self (s : Store) (k : String) (v : CacheValue) :
    (s.setItem k v).getItem k = some v := by
  unfold Store.setItem
  induction s with
  | nil => simp [Store.removeItem, Store.getItem]
  | cons e s ih =>
    by_cases hek : e.1 = k <;> simp [Store.removeItem, Store.getItem, hek, ih]
theorem Store.getItem_setItem_ne (s : Store) (k : String) (v : CacheValue)
    (k' : String) (h : k' ≠ k) :
    (s.setItem k v).getItem k' = s.getItem k' := by
  unfold Store.setItem
  induction s with
  | nil =>
    simp [Store.removeItem, Store.getItem]
    exact fun heq => absurd heq.symm h
  | cons e s ih =>
    have hkk : ¬ k = k' := fun hh => h hh.symm
    by_cases hek : e.1 = k
    · have hne : ¬ e.1 = k' := fun he => h ((he.symm.trans hek))
      simp [Store.removeItem, Store.getItem, hek, hne, hkk, h, ih]
    · by_cases hk' : e.1 = k' <;>
        simp [Store.removeItem, Store.getItem, hek, hk', hkk, h, ih]
@[simp]
theorem Store.getItem_setItem (s : Store) (k : String) (v : CacheValue)
    (k' : String) :
    (s.setItem k v).getItem k' = if k' = k then some v else s.getItem k' := by
  by_cases h : k' = k
  · subst h; simp [Store.getItem_setItem_self]
  · simp [Store.getItem_setItem_ne s k v k' h, h]
theorem Store.getItem_eq_none_iff (s : Store) (k : String) :
    s.getItem k = none ↔ k ∉ s.getKeys := by
  induction s with
  | nil => simp [Store.getItem, Store.getKeys]
  | cons e s ih =>
    by_cases hek : e.1 = k
    · simp [Store.getItem, Store.getKeys, hek]
    · simp [Store.getItem, Store.getKeys, hek, ih, Ne.symm hek]
theorem Store.removeItem_of_getItem_none (s : Store) (k : String)
    (h : s.getItem k = none) : s.removeItem k = s := by
  induction s with
  | nil => rfl
  | cons e s ih =>
    by_cases hek : e.1 = k
    · simp [Store.getItem, hek] at h
    · simp [Store.getItem, hek] at h
      simp [Store.removeItem, hek, ih h]
theorem Store.removeItem_removeItem_self (s : Store) (k : String) :
    (s.removeItem k).removeItem k = s.removeItem k :=
  Store.removeItem_of_getItem_none _ _ (Store.getItem_removeItem_self s k)
theorem Store.removeItem_append (s t : Store) (k : String) :
    (s ++ t).removeItem k = s.removeItem k ++ t.removeItem k := by
  induction s with
  | nil => rfl
  | cons e s ih => by_cases hek : e.1 = k <;> simp [Store.removeItem, hek, ih]
theorem Store.setItem_idem (s : Store) (k : String) (v : CacheValue) :
    (s.setItem k v).setItem k v = s.setItem k v := by
  unfold Store.setItem
  rw [Store.removeItem_append, Store.removeItem_removeItem_self]
  have h2 : Store.removeItem [(k, v)] k = [] := by simp [Store.removeItem]
  rw [h2, List.append_nil]
@[simp]
theorem removeTemporaryItem_temp (m : Manager) (st : CacheState) (k : String) :
    (removeTemporaryItem m st k).temporaryCacheStorage
      = st.temporaryCacheStorage.removeItem k := by
  unfold removeTemporaryItem
  rcases h : m.cacheConfig.storeAuthStateInCookie <;> simp [h]
@[simp]
theorem removeTemporaryItem_browser (m : Manager) (st : CacheState) (k : String) :
    (removeTemporaryItem m st k).browserStorage = st.browserStorage := by
  unfold removeTemporaryItem
  rcases h : m.cacheConfig.storeAuthStateInCookie <;> simp [h]
@[simp]
theorem removeTemporaryItem_internal (m : Manager) (st : CacheState) (k : String) :
    (removeTemporaryItem m st k).internalStorage = st.internalStorage := by
  unfold removeTemporaryItem
  rcases h : m.cacheConfig.storeAuthStateInCookie <;> simp [h]
@[simp]
theorem removeTemporaryItem_cookie (m : Manager) (st : CacheState) (k : String) :
    (removeTemporaryItem m st k).cookieStorage
      = if m.cacheConfig.storeAuthStateInCookie then st.cookieStorage.removeItem k
        else st.cookieStorage := by
  unfold removeTemporaryItem
  rcases h : m.cacheConfig.storeAuthStateInCookie <;> simp [h]
@[simp]
theorem setTemporaryCache_temp (m : Manager) (st : CacheState) (ck : String)
    (v : CacheValue) (g : Bool) :
    (setTemporaryCache m st ck v g).temporaryCacheStorage
      = st.temporaryCacheStorage.setItem
          (if g then generateCacheKey m ck else ck) v := by
  unfold setTemporaryCache
  rcases h : m.cacheConfig.storeAuthStateInCookie <;> simp [h]
@[simp]
theorem setTemporaryCache_browser (m : Manager) (st : CacheState) (ck : String)
    (v : CacheValue) (g : Bool) :
    (setTemporaryCache m st ck v g).browserStorage = st.browserStorage := by
  unfold setTemporaryCache
  rcases h : m.cacheConfig.storeAuthStateInCookie <;> simp [h]
@[simp]
theorem setTemporaryCache_internal (m : Manager) (st : CacheState) (ck : String)
    (v : CacheValue) (g : Bool) :
    (setTemporaryCache m st ck v g).internalStorage = st.internalStorage := by
  unfold setTemporaryCache
  rcases h : m.cacheConfig.storeAuthStateInCookie <;> simp [h]
@[simp]
theorem setTemporaryCache_cookie (m : Manager) (st : CacheState) (ck : String)
    (v : CacheValue) (g : Bool) :
    (setTemporaryCache m st ck v g).cookieStorage
      = if m.cacheConfig.storeAuthStateInCookie then
          st.cookieStorage.setItem (if g then generateCacheKey m ck else ck) v
        else st.cookieStorage := by
  unfold setTemporaryCache
  rcases h : m.cacheConfig.storeAuthStateInCookie <;> simp [h]
theorem temp_none_removeTemporaryItem (m : Manager) (st : CacheState)
    (k k' : String) (h : st.temporaryCacheStorage.getItem k = none) :
    (removeTemporaryItem m st k').temporaryCacheStorage.getItem k = none := by
  simp [h]
theorem cookie_none_removeTemporaryItem (m : Manager) (st : CacheState)
    (k k' : String) (h : st.cookieStorage.getItem k = none) :
    (removeTemporaryItem m st k').cookieStorage.getItem k = none := by
  rcases hf : m.cacheConfig.storeAuthStateInCookie <;> simp [hf, h]
theorem temp_none_removeTemporaryItem_self (m : Manager) (st : CacheState)
    (k : String) :
    (removeTemporaryItem m st k).temporaryCacheStorage.getItem k = none := by
  simp
theorem cookie_none_removeTemporaryItem_self (m : Manager) (st : CacheState)
    (k : String) (hf : m.cacheConfig.storeAuthStateInCookie = true) :
    (removeTemporaryItem m st k).cookieStorage.getItem k = none := by
  simp [hf]
theorem getTemporaryCache_eq_none (m : Manager) (st : CacheState) (key : String)
    (hc : m.cacheConfig.storeAuthStateInCookie = true →
      truthyGet (st.cookieStorage.getItem key) = none)
    (ht : truthyGet (st.temporaryCacheStorage.getItem key) = none)
    (hb : m.cacheConfig.cacheLocation = BrowserCacheLocation.localStorage →
      truthyGet (st.browserStorage.getItem key) = none) :
    getTemporaryCache m st key false = none := by
  unfold getTemporaryCache
  rcases hck : m.cacheConfig.storeAuthStateInCookie
  · simp only [hck, Bool.false_eq_true, if_false]
    rw [ht]
    rcases hl : m.cacheConfig.cacheLocation <;> simp [hl, hb]
  · simp only [hck, if_true, Bool.false_eq_true, if_false]
    rw [hc hck, ht]
    rcases hl : m.cacheConfig.cacheLocation <;> simp [hl, hb]
theorem setInteractionInProgress_false_eq (m : Manager) (st : CacheState) :
    setInteractionInProgress m st false =
      .ok (if (match getInteractionInProgress m st with
               | some v => v.serialize == m.clientId
               | none => false) then
             removeTemporaryItem m st interactionStatusFullKey
           else st) := by
  unfold setInteractionInProgress
  simp only [Bool.false_eq_true, if_false]
  split <;> rfl
theorem setInteractionInProgress_false_shape (m : Manager) (st : CacheState) :
    ∃ st', setInteractionInProgress m st false = .ok st' ∧
      (st' = removeTemporaryItem m st interactionStatusFullKey ∨ st' = st) := by
  rw [setInteractionInProgress_false_eq]
  split
  · exact ⟨_, rfl, Or.inl rfl⟩
  · exact ⟨_, rfl, Or.inr rfl⟩
theorem getItem_foldl_condRemove (cond : String → Bool) (keys : List String)
    (s : Store) (k : String) :
    (keys.foldl (fun acc k' => if cond k' then acc.removeItem k' else acc)
      s).getItem k
      = if cond k = true ∧ k ∈ keys then none else s.getItem k := by
  induction keys generalizing s with
  | nil => simp
  | cons a as ih =>
    simp only [List.foldl_cons]
    rw [ih]
    by_cases hin : cond k = true ∧ k ∈ as
    · simp [hin, List.mem_cons, hin.1, hin.2]
    · by_cases hka : k = a
      · subst hka
        by_cases hck : cond k
        · simp [hck, hin, List.mem_cons]
        · simp [hck]
      · have hmem : (cond k = true ∧ k ∈ a :: as) ↔ (cond k = true ∧ k ∈ as) := by
          simp [List.mem_cons, hka]
        rw [if_neg (fun hx => hin (hmem.mp hx)), if_neg hin]
        by_cases hca : cond a
        · simp [hca, hka]
        · simp [hca]
theorem temp_foldl_condRemoveTemp (m : Manager) (cond : String → Bool)
    (keys : List String) (st : CacheState) (k : String) :
    ((keys.foldl
        (fun acc k' => if cond k' then removeTemporaryItem m acc k' else acc)
        st).temporaryCacheStorage).getItem k
      = if cond k = true ∧ k ∈ keys then none
        else st.temporaryCacheStorage.getItem k := by
  induction keys generalizing st with
  | nil => simp
  | cons a as ih =>
    simp only [List.foldl_cons]
    rw [ih]
    by_cases hin : cond k = true ∧ k ∈ as
    · simp [hin, List.mem_cons, hin.1, hin.2]
    · by_cases hka : k = a
      · subst hka
        by_cases hck : cond k
        · simp [hck, hin, List.mem_cons]
        · simp [hck]
      · have hmem : (cond k = true ∧ k ∈ a :: as) ↔ (cond k = true ∧ k ∈ as) := by
          simp [List.mem_cons, hka]
        rw [if_neg (fun hx => hin (hmem.mp hx)), if_neg hin]
        by_cases hca : cond a
        · simp [hca, hka]
        · simp [hca]
theorem browser_foldl_condRemoveTemp (m : Manager) (cond : String → Bool)
    (keys : List String) (st : CacheState) :
    (keys.foldl
        (fun acc k' => if cond k' then removeTemporaryItem m acc k' else acc)
        st).browserStorage = st.browserStorage := by
  induction keys generalizing st with
  | nil => rfl
  | cons a as ih =>
    simp only [List.foldl_cons]
    rw [ih]
    by_cases hca : cond a <;> simp [hca]
theorem addTokenKey_eq (m : Manager) (st : CacheState) (k : String)
    (ty : CredentialType) :
    addTokenKey m st k ty =
      { st with browserStorage := st.browserStorage.setItem (tokenKeysSlot m) (CacheValue.tokenKeysRec (tkInsert (getTokenKeys m st) k ty)) } := by
  cases ty <;> rfl
theorem removeTokenKey_eq (m : Manager) (st : CacheState) (k : String)
    (ty : CredentialType) :
    removeTokenKey m st k ty =
      { st with browserStorage := st.browserStorage.setItem (tokenKeysSlot m) (CacheValue.tokenKeysRec (tkErase (getTokenKeys m st) k ty)) } := by
  cases ty <;> rfl
theorem getTokenKeys_setSlot (m : Manager) (st : CacheState) (b : Store)
    (t : TokenKeys) :
    getTokenKeys m { st with browserStorage := b.setItem (tokenKeysSlot m) (CacheValue.tokenKeysRec t) } = t := by
  unfold getTokenKeys
  simp
theorem getAccountKeys_setSlot (st : CacheState) (b : Store) (xs : List String) :
    getAccountKeys { st with browserStorage := b.setItem ACCOUNT_KEYS (CacheValue.arr xs) } = xs := by
  unfold getAccountKeys
  simp
theorem tkInsert_idem (t : TokenKeys) (k : String) (ty : CredentialType) :
    tkInsert (tkInsert t k ty) k ty = tkInsert t k ty := by
  cases ty with
  | idToken => by_cases hc : k ∈ t.idToken <;> simp [tkInsert, hc]
  | accessToken => by_cases hc : k ∈ t.accessToken <;> simp [tkInsert, hc]
  | refreshToken => by_cases hc : k ∈ t.refreshToken <;> simp [tkInsert, hc]
theorem addTokenKey_addTokenKey (m : Manager) (st : CacheState) (k : String)
    (ty : CredentialType) :
    addTokenKey m (addTokenKey m st k ty) k ty = addTokenKey m st k ty := by
  rw [addTokenKey_eq m st k ty, addTokenKey_eq, getTokenKeys_setSlot,
    tkInsert_idem]
  simp [Store.setItem_idem]
theorem addAccountKeyToMap_addAccountKeyToMap (st : CacheState) (k : String) :
    addAccountKeyToMap (addAccountKeyToMap st k) k = addAccountKeyToMap st k := by
  by_cases hc : k ∈ getAccountKeys st
  · have h1 : addAccountKeyToMap st k = st := by
      unfold addAccountKeyToMap
      simp [hc]
    rw [h1, h1]
  · have h1 : addAccountKeyToMap st k =
        { st with browserStorage := st.browserStorage.setItem ACCOUNT_KEYS (CacheValue.arr (getAccountKeys st ++ [k])) } := by
      unfold addAccountKeyToMap
      simp [hc]
    rw [h1]
    unfold addAccountKeyToMap
    rw [getAccountKeys_setSlot]
    simp
theorem getTokenKeys_empty (m : Manager) :
    getTokenKeys m emptyCacheState = ⟨[], [], []⟩ := rfl
theorem getAccountKeys_empty : getAccountKeys emptyCacheState = [] := rfl
/-- Claim C7: adding the same key twice to a key index is idempotent — a
second addTokenKey with the same key and credential type, or a second
addAccountKeyToMap with the same key, leaves the stored state exactly as
after the first call — and from an empty cache two insertions of a key
leave its category index holding exactly that one key; in particular
addTokenKey of a key under the access-token category twice leaves
getTokenKeys.accessToken equal to the one-element list of that key. -/
theorem c7_index_insert_idempotent :
    (∀ (m : Manager) (st : CacheState) (k : String) (ty : CredentialType),
       addTokenKey m (addTokenKey m st k ty) k ty = addTokenKey m st k ty)
  ∧ (∀ (st : CacheState) (k : String),
       addAccountKeyToMap (addAccountKeyToMap st k) k = addAccountKeyToMap st k)
  ∧ (∀ (m : Manager) (k : String),
       (getTokenKeys m (addTokenKey m (addTokenKey m emptyCacheState k CredentialType.accessToken) k CredentialType.accessToken)).accessToken = [k])
  ∧ (∀ (m : Manager) (k : String),
       (getTokenKeys m (addTokenKey m (addTokenKey m emptyCacheState k CredentialType.idToken) k CredentialType.idToken)).idToken = [k])
  ∧ (∀ (m : Manager) (k : String),
       (getTokenKeys m (addTokenKey m (addTokenKey m emptyCacheState k CredentialType.refreshToken) k CredentialType.refreshToken)).refreshToken = [k])
  ∧ (∀ (k : String),
       getAccountKeys (addAccountKeyToMap (addAccountKeyToMap emptyCacheState k) k) = [k]) := by
  refine ⟨addTokenKey_addTokenKey, addAccountKeyToMap_addAccountKeyToMap,
    ?_, ?_, ?_, ?_⟩
  · intro m k
    rw [addTokenKey_addTokenKey, addTokenKey_eq, getTokenKeys_setSlot,
      getTokenKeys_empty]
    simp [tkInsert]
  · intro m k
    rw [addTokenKey_addTokenKey, addTokenKey_eq, getTokenKeys_setSlot,
      getTokenKeys_empty]
    simp [tkInsert]
  · intro m k
    rw [addTokenKey_addTokenKey, addTokenKey_eq, getTokenKeys_setSlot,
      getTokenKeys_empty]
    simp [tkInsert]
  · intro k
    rw [addAccountKeyToMap_addAccountKeyToMap]
    unfold addAccountKeyToMap
    rw [getAccountKeys_empty]
    simp [getAccountKeys_setSlot]
theorem c2_interaction_lock (m : Manager) (st : CacheState) :
    (∀ v, getInteractionInProgress m st = some v →
       setInteractionInProgress m st true = .error AuthError.interactionInProgress)
  ∧ (getInteractionInProgress m st = none →
       setInteractionInProgress m st true =
         .ok (setTemporaryCache m st interactionStatusFullKey (CacheValue.str m.clientId) false))
  ∧ (∀ v, getInteractionInProgress m st = some v → v.serialize = m.clientId →
       setInteractionInProgress m st false =
         .ok (removeTemporaryItem m st interactionStatusFullKey))
  ∧ ((∀ v, getInteractionInProgress m st = some v → v.serialize ≠ m.clientId) →
       setInteractionInProgress m st false = .ok st) := by
  refine ⟨?_, ?_, ?_, ?_⟩
  · intro v h
    unfold setInteractionInProgress
    rw [h]
    rfl
  · intro h
    unfold setInteractionInProgress
    rw [h]
    rfl
  · intro v h hs
    unfold setInteractionInProgress
    rw [h]
    simp [hs]
  · intro h
    unfold setInteractionInProgress
    rcases hg : getInteractionInProgress m st with _ | v
    · simp
    · simp [h v hg]
/-- Witness for C2: on an empty cache the lock read is absent, and acquiring
the lock succeeds by storing the client id. -/
theorem c2_interaction_lock_witness :
    getInteractionInProgress mgrDefault emptyCacheState = none ∧
    setInteractionInProgress mgrDefault emptyCacheState true =
      .ok (setTemporaryCache mgrDefault emptyCacheState interactionStatusFullKey (CacheValue.str mgrDefault.clientId) false) :=
  ⟨rfl, (c2_interaction_lock mgrDefault emptyCacheState).2.1 rfl⟩
theorem getAccountKeys_removeAccountKeyFromMap (st : CacheState) (k : String) :
    getAccountKeys (removeAccountKeyFromMap st k) = (getAccountKeys st).erase k := by
  unfold removeAccountKeyFromMap
  by_cases hc : k ∈ getAccountKeys st
  · simp [hc, getAccountKeys_setSlot]
  · simp [hc, List.erase_of_not_mem hc]
theorem getTokenKeys_removeTokenKey (m : Manager) (st : CacheState)
    (k : String) (ty : CredentialType) :
    getTokenKeys m (removeTokenKey m st k ty) = tkErase (getTokenKeys m st) k ty := by
  rw [removeTokenKey_eq, getTokenKeys_setSlot]
/-- Claim C1: when the backing read of a key is absent (or falsy), or the
stored value fails to decode as a structured object, or decodes to a value
lacking the required discriminator fields of its category, the
corresponding getter yields an absent result and splices the key out of
that category's key index; the getters are total functions, so no error is
raised on this path. -/
theorem c1_self_healing_reads (m : Manager) (st : CacheState)
    (k1 k2 k3 k4 : String)
    (h1 : corruptRead st.browserStorage k1 isAccountEntity)
    (h2 : corruptRead st.browserStorage k2 isIdTokenEntity)
    (h3 : corruptRead st.browserStorage k3 isAccessTokenEntity)
    (h4 : corruptRead st.browserStorage k4 isRefreshTokenEntity) :
    ((getAccount st k1).2 = none ∧
      getAccountKeys (getAccount st k1).1 = (getAccountKeys st).erase k1)
  ∧ ((getIdTokenCredential m st k2).2 = none ∧
      getTokenKeys m (getIdTokenCredential m st k2).1 = tkErase (getTokenKeys m st) k2 CredentialType.idToken)
  ∧ ((getAccessTokenCredential m st k3).2 = none ∧
      getTokenKeys m (getAccessTokenCredential m st k3).1 = tkErase (getTokenKeys m st) k3 CredentialType.accessToken)
  ∧ ((getRefreshTokenCredential m st k4).2 = none ∧
      getTokenKeys m (getRefreshTokenCredential m st k4).1 = tkErase (getTokenKeys m st) k4 CredentialType.refreshToken) := by
  refine ⟨?_, ?_, ?_, ?_⟩
  · have hmain : getAccount st k1 = (removeAccountKeyFromMap st k1, none) := by
      unfold getAccount
      rcases h1 with hT | ⟨v, hv, hp | ⟨p, hp, hcheck⟩⟩
      · rw [hT]
      · rw [hv]
        simp [hp]
      · rw [hv]
        simp [hp, hcheck]
    rw [hmain]
    exact ⟨rfl, getAccountKeys_removeAccountKeyFromMap st k1⟩
  · have hmain : getIdTokenCredential m st k2 = (removeTokenKey m st k2 .idToken, none) := by
      unfold getIdTokenCredential
      rcases h2 with hT | ⟨v, hv, hp | ⟨p, hp, hcheck⟩⟩
      · rw [hT]
      · rw [hv]
        simp [hp]
      · rw [hv]
        simp [hp, hcheck]
    rw [hmain]
    exact ⟨rfl, getTokenKeys_removeTokenKey m st k2 .idToken⟩
  · have hmain : getAccessTokenCredential m st k3 = (removeTokenKey m st k3 .accessToken, none) := by
      unfold getAccessTokenCredential
      rcases h3 with hT | ⟨v, hv, hp | ⟨p, hp, hcheck⟩⟩
      · rw [hT]
      · rw [hv]
        simp [hp]
      · rw [hv]
        simp [hp, hcheck]
    rw [hmain]
    exact ⟨rfl, getTokenKeys_removeTokenKey m st k3 .accessToken⟩
  · have hmain : getRefreshTokenCredential m st k4 = (removeTokenKey m st k4 .refreshToken, none) := by
      unfold getRefreshTokenCredential
      rcases h4 with hT | ⟨v, hv, hp | ⟨p, hp, hcheck⟩⟩
      · rw [hT]
      · rw [hv]
        simp [hp]
      · rw [hv]
        simp [hp, hcheck]
    rw [hmain]
    exact ⟨rfl, getTokenKeys_removeTokenKey m st k4 .refreshToken⟩
/-- Witness for C1: all four corrupt-read conditions hold on the empty
cache (absent reads), and the four getters yield absent results with the
keys spliced out of their indexes. -/
theorem c1_self_healing_reads_witness :
    (corruptRead emptyCacheState.browserStorage "a" isAccountEntity ∧
     corruptRead emptyCacheState.browserStorage "b" isIdTokenEntity ∧
     corruptRead emptyCacheState.browserStorage "c" isAccessTokenEntity ∧
     corruptRead emptyCacheState.browserStorage "d" isRefreshTokenEntity)
  ∧ (((getAccount emptyCacheState "a").2 = none ∧
      getAccountKeys (getAccount emptyCacheState "a").1 = (getAccountKeys emptyCacheState).erase "a")
  ∧ ((getIdTokenCredential mgrDefault emptyCacheState "b").2 = none ∧
      getTokenKeys mgrDefault (getIdTokenCredential mgrDefault emptyCacheState "b").1 = tkErase (getTokenKeys mgrDefault emptyCacheState) "b" CredentialType.idToken)
  ∧ ((getAccessTokenCredential mgrDefault emptyCacheState "c").2 = none ∧
      getTokenKeys mgrDefault (getAccessTokenCredential mgrDefault emptyCacheState "c").1 = tkErase (getTokenKeys mgrDefault emptyCacheState) "c" CredentialType.accessToken)
  ∧ ((getRefreshTokenCredential mgrDefault emptyCacheState "d").2 = none ∧
      getTokenKeys mgrDefault (getRefreshTokenCredential mgrDefault emptyCacheState "d").1 = tkErase (getTokenKeys mgrDefault emptyCacheState) "d" CredentialType.refreshToken)) :=
  ⟨⟨Or.inl rfl, Or.inl rfl, Or.inl rfl, Or.inl rfl⟩,
   c1_self_healing_reads mgrDefault emptyCacheState "a" "b" "c" "d"
     (Or.inl rfl) (Or.inl rfl) (Or.inl rfl) (Or.inl rfl)⟩
theorem not_mem_erase_of_count_le_one {l : List String} {a : String}
    (h : l.count a ≤ 1) : a ∉ l.erase a := by
  intro hmem
  have hpos : 0 < (l.erase a).count a := List.count_pos_iff.mpr hmem
  rw [List.count_erase_self] at hpos
  omega
theorem getAccountKeys_removeOther (st : CacheState) (k : String)
    (h : k ≠ ACCOUNT_KEYS) :
    getAccountKeys { st with browserStorage := st.browserStorage.removeItem k }
      = getAccountKeys st := by
  unfold getAccountKeys
  simp only [Store.getItem_removeItem]
  rw [if_neg (fun hh : ACCOUNT_KEYS = k => h hh.symm)]
theorem getTokenKeys_removeOther (m : Manager) (st : CacheState) (k : String)
    (h : k ≠ tokenKeysSlot m) :
    getTokenKeys m { st with browserStorage := st.browserStorage.removeItem k }
      = getTokenKeys m st := by
  unfold getTokenKeys
  simp only [Store.getItem_removeItem]
  rw [if_neg (fun hh : tokenKeysSlot m = k => h hh.symm)]
theorem tkField_tkErase (t : TokenKeys) (k : String) (ty : CredentialType) :
    tkField (tkErase t k ty) ty = (tkField t ty).erase k := by
  cases ty <;> rfl
theorem tkErase_no_op (t : TokenKeys) (k : String) (ty : CredentialType)
    (h : k ∉ tkField t ty) : tkErase t k ty = t := by
  cases ty with
  | idToken =>
    have h' : k ∉ t.idToken := h
    simp [tkErase, List.erase_of_not_mem h']
  | accessToken =>
    have h' : k ∉ t.accessToken := h
    simp [tkErase, List.erase_of_not_mem h']
  | refreshToken =>
    have h' : k ∉ t.refreshToken := h
    simp [tkErase, List.erase_of_not_mem h']
theorem Store.removeItem_comm (b : Store) (k k' : String) :
    (b.removeItem k).removeItem k' = (b.removeItem k').removeItem k := by
  induction b with
  | nil => rfl
  | cons e s ih =>
    by_cases h1 : e.1 = k <;> by_cases h2 : e.1 = k'
    · have hkk : k = k' := h1.symm.trans h2
      subst hkk
      simp [Store.removeItem, h1, ih]
    · have hkk : ¬ k = k' := fun hh => h2 (h1.trans hh)
      simp [Store.removeItem, h1, h2, hkk, ih]
    · have hkk : ¬ k' = k := fun hh => h1 (h2.trans hh)
      simp [Store.removeItem, h1, h2, hkk, ih]
    · simp [Store.removeItem, h1, h2, ih]
theorem Store.removeItem_setItem_ne (b : Store) (s : String) (v : CacheValue)
    (k : String) (h : k ≠ s) :
    (b.setItem s v).removeItem k = (b.removeItem k).setItem s v := by
  unfold Store.setItem
  rw [Store.removeItem_append, Store.removeItem_comm]
  have : Store.removeItem [(s, v)] k = [(s, v)] := by
    simp [Store.removeItem, Ne.symm h]
  rw [this]
theorem Store.setItem_overwrite (b : Store) (s : String) (v1 v2 : CacheValue) :
    (b.setItem s v1).setItem s v2 = b.setItem s v2 := by
  unfold Store.setItem
  rw [Store.removeItem_append, Store.removeItem_removeItem_self]
  have : Store.removeItem [(s, v1)] s = [] := by simp [Store.removeItem]
  rw [this, List.append_nil]
theorem removeIdToken_spec (m : Manager) (st : CacheState) (k : String)
    (h1 : (getTokenKeys m st).idToken.count k ≤ 1)
    (h2 : k ≠ tokenKeysSlot m) :
    (removeIdToken m st k).browserStorage.getItem k = none
  ∧ k ∉ (getTokenKeys m (removeIdToken m st k)).idToken
  ∧ removeIdToken m (removeIdToken m st k) k = removeIdToken m st k := by
  obtain ⟨b, tp, ii, ck⟩ := st
  unfold removeIdToken
  simp only [removeTokenKey_eq]
  have hks : ¬ k = tokenKeysSlot m := h2
  have hsk : ¬ tokenKeysSlot m = k := fun hh => h2 hh.symm
  simp only [getTokenKeys, Store.getItem_setItem, Store.getItem_removeItem] at h1 ⊢
  simp only [hks, hsk, if_false, if_true, ite_true, ite_false]
  generalize hM : (match b.getItem (tokenKeysSlot m) with
    | some (CacheValue.tokenKeysRec t) => t
    | _ => (⟨[], [], []⟩ : TokenKeys)) = T at h1 ⊢
  have hnm : k ∉ (tkErase T k CredentialType.idToken).idToken := by
    show k ∉ T.idToken.erase k
    exact not_mem_erase_of_count_le_one h1
  refine ⟨trivial, hnm, ?_⟩
  rw [tkErase_no_op (tkErase T k CredentialType.idToken) k CredentialType.idToken hnm]
  rw [Store.removeItem_setItem_ne _ _ _ _ h2]
  rw [Store.removeItem_removeItem_self]
  rw [Store.setItem_overwrite]
theorem removeAccount_spec (st : CacheState) (k : String)
    (h1 : (getAccountKeys st).count k ≤ 1)
    (h2 : k ≠ ACCOUNT_KEYS) :
    (removeAccount st k).browserStorage.getItem k = none
  ∧ k ∉ getAccountKeys (removeAccount st k)
  ∧ removeAccount (removeAccount st k) k = removeAccount st k := by
  obtain ⟨b, tp, ii, ck⟩ := st
  have hks : ¬ k = ACCOUNT_KEYS := h2
  have hsk : ¬ ACCOUNT_KEYS = k := fun hh => h2 hh.symm
  unfold removeAccount removeAccountKeyFromMap
  simp only [getAccountKeys, Store.getItem_setItem, Store.getItem_removeItem] at h1 ⊢
  simp only [hks, hsk, if_false, if_true, ite_true, ite_false]
  generalize hM : (match b.getItem ACCOUNT_KEYS with
    | some (CacheValue.arr xs) => xs
    | _ => ([] : List String)) = A at h1 ⊢
  by_cases hc : k ∈ A
  · have hnm : k ∉ A.erase k := not_mem_erase_of_count_le_one h1
    simp only [List.elem_eq_mem, hc, decide_True, if_true, ite_true]
    simp only [Store.getItem_setItem, Store.getItem_removeItem, hks, hsk,
      if_false, ite_false]
    simp only [eq_self_iff_true, if_true, ite_true]
    simp only [List.elem_eq_mem, hnm, decide_False, Bool.false_eq_true,
      if_false, ite_false]
    refine ⟨trivial, not_false, ?_⟩
    simp only [CacheState.mk.injEq, and_true, true_and]
    rw [Store.removeItem_setItem_ne _ _ _ _ h2, Store.removeItem_removeItem_self]
  · simp only [List.elem_eq_mem, hc, decide_False, Bool.false_eq_true, if_false,
      ite_false]
    simp only [Store.getItem_removeItem, hsk, if_false, ite_false, hM]
    simp only [List.elem_eq_mem, hc, decide_False, Bool.false_eq_true, if_false,
      ite_false]
    refine ⟨by simp, not_false, ?_⟩
    simp only [CacheState.mk.injEq, and_true, true_and]
    rw [Store.removeItem_removeItem_self]
theorem removeAccessToken_spec (m : Manager) (st : CacheState) (k : String)
    (h1 : (getTokenKeys m st).accessToken.count k ≤ 1)
    (h2 : k ≠ tokenKeysSlot m) :
    (removeAccessToken m st k).browserStorage.getItem k = none
  ∧ k ∉ (getTokenKeys m (removeAccessToken m st k)).accessToken
  ∧ removeAccessToken m (removeAccessToken m st k) k = removeAccessToken m st k := by
  obtain ⟨b, tp, ii, ck⟩ := st
  unfold removeAccessToken
  simp only [removeTokenKey_eq]
  have hks : ¬ k = tokenKeysSlot m := h2
  have hsk : ¬ tokenKeysSlot m = k := fun hh => h2 hh.symm
  simp only [getTokenKeys, Store.getItem_setItem, Store.getItem_removeItem] at h1 ⊢
  simp only [hks, hsk, if_false, if_true, ite_true, ite_false]
  generalize hM : (match b.getItem (tokenKeysSlot m) with
    | some (CacheValue.tokenKeysRec t) => t
    | _ => (⟨[], [], []⟩ : TokenKeys)) = T at h1 ⊢
  have hnm : k ∉ (tkErase T k CredentialType.accessToken).accessToken := by
    show k ∉ T.accessToken.erase k
    exact not_mem_erase_of_count_le_one h1
  refine ⟨trivial, hnm, ?_⟩
  rw [tkErase_no_op (tkErase T k CredentialType.accessToken) k CredentialType.accessToken hnm]
  rw [Store.removeItem_setItem_ne _ _ _ _ h2]
  rw [Store.removeItem_removeItem_self]
  rw [Store.setItem_overwrite]
theorem removeRefreshToken_spec (m : Manager) (st : CacheState) (k : String)
    (h1 : (getTokenKeys m st).refreshToken.count k ≤ 1)
    (h2 : k ≠ tokenKeysSlot m) :
    (removeRefreshToken m st k).browserStorage.getItem k = none
  ∧ k ∉ (getTokenKeys m (removeRefreshToken m st k)).refreshToken
  ∧ removeRefreshToken m (removeRefreshToken m st k) k = removeRefreshToken m st k := by
  obtain ⟨b, tp, ii, ck⟩ := st
  unfold removeRefreshToken
  simp only [removeTokenKey_eq]
  have hks : ¬ k = tokenKeysSlot m := h2
  have hsk : ¬ tokenKeysSlot m = k := fun hh => h2 hh.symm
  simp only [getTokenKeys, Store.getItem_setItem, Store.getItem_removeItem] at h1 ⊢
  simp only [hks, hsk, if_false, if_true, ite_true, ite_false]
  generalize hM : (match b.getItem (tokenKeysSlot m) with
    | some (CacheValue.tokenKeysRec t) => t
    | _ => (⟨[], [], []⟩ : TokenKeys)) = T at h1 ⊢
  have hnm : k ∉ (tkErase T k CredentialType.refreshToken).refreshToken := by
    show k ∉ T.refreshToken.erase k
    exact not_mem_erase_of_count_le_one h1
  refine ⟨trivial, hnm, ?_⟩
  rw [tkErase_no_op (tkErase T k CredentialType.refreshToken) k CredentialType.refreshToken hnm]
  rw [Store.removeItem_setItem_ne _ _ _ _ h2]
  rw [Store.removeItem_removeItem_self]
  rw [Store.setItem_overwrite]
/-- Claim C6: for an entity key of each category (keys distinct from the
index-slot keys, in a state whose index lists the key at most once), the
corresponding remove operation leaves the key absent from both the backing
store and its category's key index, and a second removal of the same key
leaves the state exactly unchanged and raises no error (the operations are
total). -/
theorem c6_removal_completeness (m : Manager) (st : CacheState)
    (k1 k2 k3 k4 : String)
    (hA1 : (getAccountKeys st).count k1 ≤ 1) (hA2 : k1 ≠ ACCOUNT_KEYS)
    (hI1 : (getTokenKeys m st).idToken.count k2 ≤ 1) (hI2 : k2 ≠ tokenKeysSlot m)
    (hC1 : (getTokenKeys m st).accessToken.count k3 ≤ 1) (hC2 : k3 ≠ tokenKeysSlot m)
    (hR1 : (getTokenKeys m st).refreshToken.count k4 ≤ 1) (hR2 : k4 ≠ tokenKeysSlot m) :
    ((removeAccount st k1).browserStorage.getItem k1 = none
      ∧ k1 ∉ getAccountKeys (removeAccount st k1)
      ∧ removeAccount (removeAccount st k1) k1 = removeAccount st k1)
  ∧ ((removeIdToken m st k2).browserStorage.getItem k2 = none
      ∧ k2 ∉ (getTokenKeys m (removeIdToken m st k2)).idToken
      ∧ removeIdToken m (removeIdToken m st k2) k2 = removeIdToken m st k2)
  ∧ ((removeAccessToken m st k3).browserStorage.getItem k3 = none
      ∧ k3 ∉ (getTokenKeys m (removeAccessToken m st k3)).accessToken
      ∧ removeAccessToken m (removeAccessToken m st k3) k3 = removeAccessToken m st k3)
  ∧ ((removeRefreshToken m st k4).browserStorage.getItem k4 = none
      ∧ k4 ∉ (getTokenKeys m (removeRefreshToken m st k4)).refreshToken
      ∧ removeRefreshToken m (removeRefreshToken m st k4) k4 = removeRefreshToken m st k4) :=
  ⟨removeAccount_spec st k1 hA1 hA2,
   removeIdToken_spec m st k2 hI1 hI2,
   removeAccessToken_spec m st k3 hC1 hC2,
   removeRefreshToken_spec m st k4 hR1 hR2⟩
/-- Witness for C6 at the empty cache with distinct concrete keys. -/
theorem c6_removal_completeness_witness :
    ((getAccountKeys emptyCacheState).count "a" ≤ 1 ∧ "a" ≠ ACCOUNT_KEYS ∧
     (getTokenKeys mgrDefault emptyCacheState).idToken.count "b" ≤ 1 ∧
     "b" ≠ tokenKeysSlot mgrDefault)
  ∧ (((removeAccount emptyCacheState "a").browserStorage.getItem "a" = none
      ∧ "a" ∉ getAccountKeys (removeAccount emptyCacheState "a")
      ∧ removeAccount (removeAccount emptyCacheState "a") "a" = removeAccount emptyCacheState "a")
  ∧ ((removeIdToken mgrDefault emptyCacheState "b").browserStorage.getItem "b" = none
      ∧ "b" ∉ (getTokenKeys mgrDefault (removeIdToken mgrDefault emptyCacheState "b")).idToken
      ∧ removeIdToken mgrDefault (removeIdToken mgrDefault emptyCacheState "b") "b" = removeIdToken mgrDefault emptyCacheState "b")
  ∧ ((removeAccessToken mgrDefault emptyCacheState "c").browserStorage.getItem "c" = none
      ∧ "c" ∉ (getTokenKeys mgrDefault (removeAccessToken mgrDefault emptyCacheState "c")).accessToken
      ∧ removeAccessToken mgrDefault (removeAccessToken mgrDefault emptyCacheState "c") "c" = removeAccessToken mgrDefault emptyCacheState "c")
  ∧ ((removeRefreshToken mgrDefault emptyCacheState "d").browserStorage.getItem "d" = none
      ∧ "d" ∉ (getTokenKeys mgrDefault (removeRefreshToken mgrDefault emptyCacheState "d")).refreshToken
      ∧ removeRefreshToken mgrDefault (removeRefreshToken mgrDefault emptyCacheState "d") "d" = removeRefreshToken mgrDefault emptyCacheState "d")) :=
  ⟨⟨by decide, by decide, by decide, by decide⟩,
   c6_removal_completeness mgrDefault emptyCacheState "a" "b" "c" "d"
     (by decide) (by decide) (by decide) (by decide)
     (by decide) (by decide) (by decide) (by decide)⟩
/-- Claim C10: with the cookie option enabled a non-empty cookie value for a
key is returned in preference to the temporary backend; and when the cookie
stage yields nothing, the temporary backend holds no (truthy) value and the
configured persistent location is localStorage, a non-empty persistent
value under the same key is returned instead of absent. -/
theorem c10_temporary_cache_precedence (m : Manager) (st : CacheState)
    (k : String) :
    (∀ c, m.cacheConfig.storeAuthStateInCookie = true →
       st.cookieStorage.getItem k = some c → c.truthy = true →
       getTemporaryCache m st k false = some c)
  ∧ ((m.cacheConfig.storeAuthStateInCookie = true →
        truthyGet (st.cookieStorage.getItem k) = none) →
      truthyGet (st.temporaryCacheStorage.getItem k) = none →
      m.cacheConfig.cacheLocation = BrowserCacheLocation.localStorage →
      ∀ v, st.browserStorage.getItem k = some v → v.truthy = true →
        getTemporaryCache m st k false = some v) := by
  refine ⟨?_, ?_⟩
  · intro c hf hck htr
    unfold getTemporaryCache
    simp only [hf, if_true, Bool.false_eq_true, if_false]
    rw [hck]
    unfold truthyGet
    simp [htr]
  · intro hc ht hl v hv htr
    unfold getTemporaryCache
    rcases hf : m.cacheConfig.storeAuthStateInCookie
    · simp only [hf, Bool.false_eq_true, if_false]
      rw [ht, hl, hv]
      unfold truthyGet
      simp [htr]
    · simp only [hf, if_true, Bool.false_eq_true, if_false]
      rw [hc hf, ht, hl, hv]
      unfold truthyGet
      simp [htr]
/-- Witness for C10: with the cookie option enabled and a non-empty cookie
value present, the read returns the cookie value. -/
theorem c10_temporary_cache_precedence_witness :
    (mgrCookie.cacheConfig.storeAuthStateInCookie = true ∧
     c10State.cookieStorage.getItem "k" = some (CacheValue.str "cv") ∧
     (CacheValue.str "cv").truthy = true) ∧
    getTemporaryCache mgrCookie c10State "k" false = some (CacheValue.str "cv") :=
  ⟨⟨rfl, by decide, by decide⟩,
   (c10_temporary_cache_precedence mgrCookie c10State "k").1
     (CacheValue.str "cv") rfl (by decide) (by decide)⟩
/-- Claim C8: getCachedRequest fails with the typed no-request error when
the cached request-parameter entry is absent, with the typed parse error
when the entry does not decode as a request, and — when the decoded request
carries no authority — with the typed no-cached-authority error when the
cached authority for the given state is also absent; none of these cases
produces an ok result. -/
theorem c8_get_cached_request_errors (m : Manager) (st : CacheState)
    (state : String) :
    (getTemporaryCache m st REQUEST_PARAMS_KEY true = none →
       getCachedRequest m st state = .error AuthError.noTokenRequestCacheError)
  ∧ (∀ v, getTemporaryCache m st REQUEST_PARAMS_KEY true = some v →
       (∀ r, v ≠ CacheValue.codeReq r) →
       getCachedRequest m st state = .error AuthError.unableToParseTokenRequestCacheError)
  ∧ (∀ r, getTemporaryCache m st REQUEST_PARAMS_KEY true = some (CacheValue.codeReq r) →
       truthyOptStr r.authority = false →
       getTemporaryCache m (removeTemporaryItem m st (generateCacheKey m REQUEST_PARAMS_KEY)) (generateAuthorityKey m state) false = none →
       getCachedRequest m st state = .error AuthError.noCachedAuthorityError) := by
  refine ⟨?_, ?_, ?_⟩
  · intro h
    unfold getCachedRequest
    rw [h]
  · intro v h hnc
    unfold getCachedRequest
    rw [h]
    cases v with
    | str s => rfl
    | obj fields => rfl
    | arr elems => rfl
    | tokenKeysRec t => rfl
    | codeReq r => exact absurd rfl (hnc r)
  · intro r h hauth hcc
    unfold getCachedRequest
    rw [h]
    simp only [hauth, Bool.false_eq_true, if_false]
    rw [hcc]
/-- Witness for C8: on the empty cache the request-parameter entry is
absent, and getCachedRequest fails with the typed no-request error. -/
theorem c8_get_cached_request_errors_witness :
    getTemporaryCache mgrDefault emptyCacheState REQUEST_PARAMS_KEY true = none ∧
    getCachedRequest mgrDefault emptyCacheState "S" =
      .error AuthError.noTokenRequestCacheError :=
  ⟨rfl, (c8_get_cached_request_errors mgrDefault emptyCacheState "S").1 rfl⟩
theorem temp_foldl_removeTemp (m : Manager) (keys : List String)
    (st : CacheState) (k : String) :
    ((keys.foldl (removeTemporaryItem m) st).temporaryCacheStorage).getItem k
      = if k ∈ keys then none else st.temporaryCacheStorage.getItem k := by
  induction keys generalizing st with
  | nil => simp
  | cons a as ih =>
    simp only [List.foldl_cons]
    rw [ih]
    by_cases hin : k ∈ as
    · simp [hin]
    · by_cases hka : k = a
      · subst hka
        simp [hin]
      · simp [hin, hka]
theorem cookie_none_foldl_removeTemp (m : Manager) (keys : List String)
    (st : CacheState) (k : String) (h : st.cookieStorage.getItem k = none) :
    ((keys.foldl (removeTemporaryItem m) st).cookieStorage).getItem k = none := by
  induction keys generalizing st with
  | nil => exact h
  | cons a as ih =>
    simp only [List.foldl_cons]
    exact ih _ (cookie_none_removeTemporaryItem m st k a h)
theorem cookie_mem_foldl_removeTemp (m : Manager) (keys : List String)
    (st : CacheState) (k : String)
    (hf : m.cacheConfig.storeAuthStateInCookie = true) (hk : k ∈ keys) :
    ((keys.foldl (removeTemporaryItem m) st).cookieStorage).getItem k = none := by
  induction keys generalizing st with
  | nil => cases hk
  | cons a as ih =>
    simp only [List.foldl_cons]
    rcases List.mem_cons.mp hk with hka | hin
    · subst hka
      exact cookie_none_foldl_removeTemp m as _ k
        (cookie_none_removeTemporaryItem_self m st k hf)
    · exact ih _ hin
theorem browser_foldl_removeTemp (m : Manager) (keys : List String)
    (st : CacheState) :
    (keys.foldl (removeTemporaryItem m) st).browserStorage = st.browserStorage := by
  induction keys generalizing st with
  | nil => rfl
  | cons a as ih =>
    simp only [List.foldl_cons]
    rw [ih]
    simp
theorem resetRequestCacheBody_eq_fold (m : Manager) (st : CacheState)
    (state : String) (h : state ≠ "") :
    resetRequestCacheBody m st state =
      (resetRemovedKeys m state).foldl (removeTemporaryItem m)
        (resetRequestCacheScan m st state) := by
  unfold resetRequestCacheBody
  rw [if_pos h]
  rfl
/-- Claim C4 (amended): for every non-empty state blob, resetRequestCache
succeeds and removes every temporary entry whose key contains the full
state blob as a substring — the scan matches the whole blob, not merely the
embedded request id, which the counterexample below separates — then
removes the derived state, nonce and authority entries plus the six
generic per-flow entries (absent keys being no-ops), and finally performs
the conditional interaction-lock release: the lock entry is cleared
whenever its read value at that point equals this instance's client id. -/
theorem c4_reset_request_cache (m : Manager) (st : CacheState) (state : String)
    (h : state ≠ "") :
    ∃ st', resetRequestCache m st state = .ok st'
  ∧ (∀ k, k ∈ st.temporaryCacheStorage.getKeys → strContains k state = true →
       st'.temporaryCacheStorage.getItem k = none)
  ∧ (∀ k, k ∈ resetRemovedKeys m state →
       st'.temporaryCacheStorage.getItem k = none)
  ∧ (∀ v, getInteractionInProgress m (resetRequestCacheBody m st state) = some v →
       v.serialize = m.clientId →
       st'.temporaryCacheStorage.getItem interactionStatusFullKey = none) := by
  obtain ⟨st', hok, hshape⟩ :=
    setInteractionInProgress_false_shape m (resetRequestCacheBody m st state)
  have hbody1 : ∀ k, k ∈ st.temporaryCacheStorage.getKeys →
      strContains k state = true →
      (resetRequestCacheBody m st state).temporaryCacheStorage.getItem k = none := by
    intro k hk hcont
    rw [resetRequestCacheBody_eq_fold m st state h, temp_foldl_removeTemp]
    split
    · rfl
    · unfold resetRequestCacheScan
      rw [temp_foldl_condRemoveTemp]
      simp [hcont, hk]
  have hbody2 : ∀ k, k ∈ resetRemovedKeys m state →
      (resetRequestCacheBody m st state).temporaryCacheStorage.getItem k = none := by
    intro k hk
    rw [resetRequestCacheBody_eq_fold m st state h, temp_foldl_removeTemp,
      if_pos hk]
  have hpres : ∀ k,
      (resetRequestCacheBody m st state).temporaryCacheStorage.getItem k = none →
      st'.temporaryCacheStorage.getItem k = none := by
    intro k hk
    rcases hshape with rfl | rfl
    · exact temp_none_removeTemporaryItem m _ k _ hk
    · exact hk
  refine ⟨st', hok, fun k hk hc => hpres k (hbody1 k hk hc),
    fun k hk => hpres k (hbody2 k hk), ?_⟩
  intro v hg hs
  have heq := setInteractionInProgress_false_eq m (resetRequestCacheBody m st state)
  rw [hok, hg] at heq
  simp only [beq_iff_eq, hs, if_true, ite_true, Except.ok.injEq] at heq
  rw [heq]
  simp
/-- Counterexample for C4 as stated: for the non-empty state blob id1:x the
temporary key foo.id1.bar contains the embedded request id (id1) as a
substring, yet resetRequestCache leaves its entry in place, because the
scan matches the full state blob rather than the embedded id. -/
theorem c4_reset_request_cache_counterexample :
    ("id1:x" ≠ "") ∧
    stateId "id1:x" = "id1" ∧
    strContains "foo.id1.bar" (stateId "id1:x") = true ∧
    (resetRequestCache mgrDefault c4CounterState "id1:x").map
      (fun s => s.temporaryCacheStorage.getItem "foo.id1.bar")
      = .ok (some (CacheValue.str "v")) := by
  refine ⟨by decide, by decide, by decide, by decide⟩
/-- Witness for C4 at a concrete non-empty state blob. -/
theorem c4_reset_request_cache_witness :
    ("s1" ≠ "") ∧
    (∃ st', resetRequestCache mgrDefault c4WitnessState "s1" = .ok st'
      ∧ (∀ k, k ∈ c4WitnessState.temporaryCacheStorage.getKeys →
           strContains k "s1" = true →
           st'.temporaryCacheStorage.getItem k = none)
      ∧ (∀ k, k ∈ resetRemovedKeys mgrDefault "s1" →
           st'.temporaryCacheStorage.getItem k = none)
      ∧ (∀ v, getInteractionInProgress mgrDefault (resetRequestCacheBody mgrDefault c4WitnessState "s1") = some v →
           v.serialize = mgrDefault.clientId →
           st'.temporaryCacheStorage.getItem interactionStatusFullKey = none)) :=
  ⟨by decide, c4_reset_request_cache mgrDefault c4WitnessState "s1" (by decide)⟩
theorem updateCacheEntries_browser (m : Manager) (st : CacheState)
    (state nonce authorityInstance loginHint : String)
    (account : Option AccountInfo) :
    (updateCacheEntries m st state nonce authorityInstance loginHint account).browserStorage
      = st.browserStorage := by
  unfold updateCacheEntries
  cases account with
  | some a => simp
  | none => by_cases hl : loginHint = "" <;> simp [hl]
theorem resetBody_browser (m : Manager) (st : CacheState) (state : String) :
    (resetRequestCacheBody m st state).browserStorage = st.browserStorage := by
  by_cases h : state ≠ ""
  · rw [resetRequestCacheBody_eq_fold m st state h, browser_foldl_removeTemp]
    unfold resetRequestCacheScan
    rw [browser_foldl_condRemoveTemp]
  · unfold resetRequestCacheBody
    rw [if_neg h]
    simp
/-- Claim C3 (amended): after updateCacheEntries followed by
resetRequestCache on a non-empty state blob, the temporary entries under
the derived state, nonce and authority keys are absent and a subsequent
getCachedAuthority returns absent — provided the durable persistent backend
does not itself hold a non-empty entry under the derived state key, the
legacy-migration fallback that the counterexample below exercises. -/
theorem c3_flow_correlation_cleanup (m : Manager) (st : CacheState)
    (S N A hint : String) (acct : Option AccountInfo)
    (hS : S ≠ "")
    (hLS : m.cacheConfig.cacheLocation = BrowserCacheLocation.localStorage →
      truthyGet (st.browserStorage.getItem (generateStateKey m S)) = none) :
    ∃ st', resetRequestCache m (updateCacheEntries m st S N A hint acct) S = .ok st'
  ∧ st'.temporaryCacheStorage.getItem (generateStateKey m S) = none
  ∧ st'.temporaryCacheStorage.getItem (generateNonceKey m S) = none
  ∧ st'.temporaryCacheStorage.getItem (generateAuthorityKey m S) = none
  ∧ getCachedAuthority m st' S = none := by
  obtain ⟨st', hok, hshape⟩ := setInteractionInProgress_false_shape m
    (resetRequestCacheBody m (updateCacheEntries m st S N A hint acct) S)
  have hmem1 : generateStateKey m S ∈ resetRemovedKeys m S := by
    simp [resetRemovedKeys]
  have hmem2 : generateNonceKey m S ∈ resetRemovedKeys m S := by
    simp [resetRemovedKeys]
  have hmem3 : generateAuthorityKey m S ∈ resetRemovedKeys m S := by
    simp [resetRemovedKeys]
  have hbody : ∀ k, k ∈ resetRemovedKeys m S →
      (resetRequestCacheBody m (updateCacheEntries m st S N A hint acct) S).temporaryCacheStorage.getItem k = none := by
    intro k hk
    rw [resetRequestCacheBody_eq_fold m _ S hS, temp_foldl_removeTemp, if_pos hk]
  have hpres : ∀ k,
      (resetRequestCacheBody m (updateCacheEntries m st S N A hint acct) S).temporaryCacheStorage.getItem k = none →
      st'.temporaryCacheStorage.getItem k = none := by
    intro k hk
    rcases hshape with rfl | rfl
    · exact temp_none_removeTemporaryItem m _ k _ hk
    · exact hk
  have hcookieB : m.cacheConfig.storeAuthStateInCookie = true →
      (resetRequestCacheBody m (updateCacheEntries m st S N A hint acct) S).cookieStorage.getItem (generateStateKey m S) = none := by
    intro hf
    rw [resetRequestCacheBody_eq_fold m _ S hS]
    exact cookie_mem_foldl_removeTemp m _ _ _ hf hmem1
  have hcookie : m.cacheConfig.storeAuthStateInCookie = true →
      st'.cookieStorage.getItem (generateStateKey m S) = none := by
    intro hf
    rcases hshape with rfl | rfl
    · exact cookie_none_removeTemporaryItem m _ _ _ (hcookieB hf)
    · exact hcookieB hf
  have hbrowser : st'.browserStorage = st.browserStorage := by
    have hb : (resetRequestCacheBody m (updateCacheEntries m st S N A hint acct) S).browserStorage = st.browserStorage := by
      rw [resetBody_browser, updateCacheEntries_browser]
    rcases hshape with rfl | rfl
    · rw [removeTemporaryItem_browser]
      exact hb
    · exact hb
  have hstate : getTemporaryCache m st' (generateStateKey m S) false = none := by
    apply getTemporaryCache_eq_none
    · intro hf
      rw [hcookie hf]
      rfl
    · rw [hpres _ (hbody _ hmem1)]
      rfl
    · intro hl
      rw [hbrowser]
      exact hLS hl
  refine ⟨st', hok, hpres _ (hbody _ hmem1), hpres _ (hbody _ hmem2),
    hpres _ (hbody _ hmem3), ?_⟩
  unfold getCachedAuthority
  rw [hstate]
/-- Counterexample for C3 as stated: with the persistent location set to
localStorage and a stale persistent entry under the derived state key —
the legacy-migration fallback path of getTemporaryCache — a
getCachedAuthority issued after updateCacheEntries and resetRequestCache
still returns a value instead of absent. -/
theorem c3_flow_correlation_cleanup_counterexample :
    (resetRequestCache mgrLocal
        (updateCacheEntries mgrLocal c3CounterState "S" "N" "A" "" Option.none) "S").map
      (fun s => getCachedAuthority mgrLocal s "S")
      = .ok (some (CacheValue.str "A0")) ∧
    some (CacheValue.str "A0") ≠ (none : Option CacheValue) := by
  refine ⟨by decide, by decide⟩
/-- Witness for C3 on the empty cache with the localStorage configuration. -/
theorem c3_flow_correlation_cleanup_witness :
    (("S" : String) ≠ "") ∧
    (mgrLocal.cacheConfig.cacheLocation = BrowserCacheLocation.localStorage →
      truthyGet (emptyCacheState.browserStorage.getItem (generateStateKey mgrLocal "S")) = none) ∧
    (∃ st', resetRequestCache mgrLocal
        (updateCacheEntries mgrLocal emptyCacheState "S" "N" "A" "" Option.none) "S" = .ok st'
      ∧ st'.temporaryCacheStorage.getItem (generateStateKey mgrLocal "S") = none
      ∧ st'.temporaryCacheStorage.getItem (generateNonceKey mgrLocal "S") = none
      ∧ st'.temporaryCacheStorage.getItem (generateAuthorityKey mgrLocal "S") = none
      ∧ getCachedAuthority mgrLocal st' "S" = none) :=
  ⟨by decide, by decide,
   c3_flow_correlation_cleanup mgrLocal emptyCacheState "S" "N" "A" ""
     Option.none (by decide) (by decide)⟩
theorem resetRequestCache_isOk (m : Manager) (st : CacheState)
    (state : String) : ∃ r, resetRequestCache m st state = .ok r := by
  obtain ⟨r, hr, _⟩ := setInteractionInProgress_false_shape m
    (resetRequestCacheBody m st state)
  exact ⟨r, hr⟩
theorem cleanRequestStep_isOk (m : Manager) (it : InteractionType)
    (acc : CacheState) (key : String) :
    ∃ acc', cleanRequestStep m it acc key = .ok acc' := by
  unfold cleanRequestStep
  split
  · split
    · exact ⟨acc, rfl⟩
    · split
      · split
        · exact resetRequestCache_isOk m acc _
        · exact ⟨acc, rfl⟩
      · exact ⟨acc, rfl⟩
  · exact ⟨acc, rfl⟩
theorem foldlM_clean_isOk (m : Manager) (it : InteractionType)
    (keys : List String) (acc : CacheState) :
    ∃ r, List.foldlM (cleanRequestStep m it) acc keys = .ok r := by
  induction keys generalizing acc with
  | nil => exact ⟨acc, rfl⟩
  | cons a as ih =>
    obtain ⟨acc', ha⟩ := cleanRequestStep_isOk m it acc a
    obtain ⟨r, hr⟩ := ih acc'
    refine ⟨r, ?_⟩
    rw [List.foldlM_cons, ha]
    exact hr
/-- Claim C9: cleanRequestByInteractionType terminates normally on every
state (zero, one or several matching request-state entries alike), and on
return it performs the final lock release: whenever the lock read after the
key loop equals this instance's client id the lock entry is removed, and
whenever it differs the final step changes nothing. -/
theorem c9_clean_by_interaction_type (m : Manager) (st : CacheState)
    (it : InteractionType) :
    ∃ st1, cleanRequestLoop m st it = .ok st1
  ∧ ∃ st', cleanRequestByInteractionType m st it = .ok st'
  ∧ (∀ v, getInteractionInProgress m st1 = some v → v.serialize = m.clientId →
       st'.temporaryCacheStorage.getItem interactionStatusFullKey = none)
  ∧ ((∀ v, getInteractionInProgress m st1 = some v → v.serialize ≠ m.clientId) →
       st' = st1) := by
  obtain ⟨st1, h1⟩ := foldlM_clean_isOk m it st.temporaryCacheStorage.getKeys st
  have h1' : cleanRequestLoop m st it = .ok st1 := h1
  obtain ⟨st', hok, hshape⟩ := setInteractionInProgress_false_shape m st1
  have hclean : cleanRequestByInteractionType m st it = .ok st' := by
    unfold cleanRequestByInteractionType
    rw [h1']
    exact hok
  refine ⟨st1, h1', st', hclean, ?_, ?_⟩
  · intro v hg hs
    have heq := setInteractionInProgress_false_eq m st1
    rw [hok, hg] at heq
    simp only [beq_iff_eq, hs, if_true, ite_true, Except.ok.injEq] at heq
    rw [heq]
    simp
  · intro hne
    have heq := setInteractionInProgress_false_eq m st1
    rw [hok] at heq
    rcases hg : getInteractionInProgress m st1 with _ | v
    · rw [hg] at heq
      simpa using heq
    · rw [hg] at heq
      have hnv : (v.serialize == m.clientId) = false :=
        beq_eq_false_iff_ne.mpr (hne v hg)
      simp only [hnv, Bool.false_eq_true, if_false, ite_false,
        Except.ok.injEq] at heq
      exact heq
/-- Witness for C9: with no matching request-state entry and the lock owned
by this client id, the clean succeeds and the lock entry is removed. -/
theorem c9_clean_by_interaction_type_witness :
    ∃ st', cleanRequestByInteractionType mgrDefault c9WitnessState InteractionType.redirect = .ok st'
      ∧ st'.temporaryCacheStorage.getItem interactionStatusFullKey = none := by
  obtain ⟨st1, h1, st', hok, hlock, hneq⟩ :=
    c9_clean_by_interaction_type mgrDefault c9WitnessState InteractionType.redirect
  have hcalc : cleanRequestLoop mgrDefault c9WitnessState InteractionType.redirect
      = .ok c9WitnessState := by decide
  rw [hcalc] at h1
  have hst1 : c9WitnessState = st1 := by
    injection h1
  refine ⟨st', hok, hlock (CacheValue.str "c") ?_ (by decide)⟩
  rw [← hst1]
  decide
theorem getItem_foldl_removeItem (keys : List String) (s : Store) (k : String) :
    (keys.foldl (fun acc k' => Store.removeItem acc k') s).getItem k
      = if k ∈ keys then none else s.getItem k := by
  induction keys generalizing s with
  | nil => simp
  | cons a as ih =>
    simp only [List.foldl_cons]
    rw [ih]
    by_cases hin : k ∈ as
    · simp [hin]
    · by_cases hka : k = a
      · subst hka
        simp [hin]
      · simp [hin, hka]
theorem strStartsWith_strContains (s p : String)
    (h : strStartsWith s p = true) : strContains s p = true := by
  unfold strStartsWith at h
  unfold strContains
  cases hd : s.data with
  | nil =>
    rw [hd] at h
    unfold charsInfix
    cases hp : p.data with
    | nil => rfl
    | cons c cs =>
      rw [hp] at h
      simp [List.isPrefixOf] at h
  | cons c rest =>
    rw [hd] at h
    unfold charsInfix
    simp [h]
theorem tokenKeysSlot_contains_base (m : Manager) :
    strContains (tokenKeysSlot m) cacheKeyBase = true := by
  apply strStartsWith_strContains
  unfold strStartsWith tokenKeysSlot
  rw [String.data_append, String.data_append]
  rw [List.isPrefixOf_iff_prefix]
  have h1 : cacheKeyBase.data <+: TOKEN_KEYS.data := by decide
  exact h1.trans ((TOKEN_KEYS.data.prefix_append _).trans
    ((TOKEN_KEYS.data ++ ".".data).prefix_append _))
theorem clear_temp_eq (m : Manager) (st : CacheState) :
    (clear m st).temporaryCacheStorage
      = (clearTempScan m (removeAppMetadata (removeAllAccounts m st))).temporaryCacheStorage := rfl
theorem clear_browser_eq (m : Manager) (st : CacheState) :
    (clear m st).browserStorage
      = clearBrowserScan m (clearTempScan m (removeAppMetadata (removeAllAccounts m st))).browserStorage := rfl
theorem clearTempScan_temp_getItem (m : Manager) (st : CacheState) (k : String) :
    (clearTempScan m st).temporaryCacheStorage.getItem k
      = if clearCond m k = true ∧ k ∈ st.temporaryCacheStorage.getKeys then none
        else st.temporaryCacheStorage.getItem k := by
  unfold clearTempScan
  rw [temp_foldl_condRemoveTemp]
theorem clearTempScan_browser (m : Manager) (st : CacheState) :
    (clearTempScan m st).browserStorage = st.browserStorage := by
  unfold clearTempScan
  rw [browser_foldl_condRemoveTemp]
theorem clearBrowserScan_getItem (m : Manager) (b : Store) (k : String) :
    (clearBrowserScan m b).getItem k
      = if clearCond m k = true ∧ k ∈ b.getKeys then none else b.getItem k := by
  unfold clearBrowserScan
  rw [getItem_foldl_condRemove]
theorem removeAppMetadata_browser_getItem (st : CacheState) (k : String) :
    (removeAppMetadata st).browserStorage.getItem k
      = if strContains k APP_METADATA_MARK = true ∧ k ∈ st.browserStorage.getKeys
        then none else st.browserStorage.getItem k := by
  unfold removeAppMetadata
  rw [getItem_foldl_condRemove]
theorem removeAppMetadata_temp (st : CacheState) :
    (removeAppMetadata st).temporaryCacheStorage = st.temporaryCacheStorage := rfl
theorem removeAllAccounts_temp (m : Manager) (st : CacheState) :
    (removeAllAccounts m st).temporaryCacheStorage = st.temporaryCacheStorage := rfl
theorem removeAllAccounts_browser_getItem_other (m : Manager) (st : CacheState)
    (k : String)
    (hA : k ≠ ACCOUNT_KEYS) (hT : k ≠ tokenKeysSlot m)
    (h1 : k ∉ getAccountKeys st)
    (h2 : k ∉ (getTokenKeys m st).idToken)
    (h3 : k ∉ (getTokenKeys m st).accessToken)
    (h4 : k ∉ (getTokenKeys m st).refreshToken) :
    (removeAllAccounts m st).browserStorage.getItem k
      = st.browserStorage.getItem k := by
  unfold removeAllAccounts
  simp only [Store.getItem_setItem]
  rw [if_neg hT, if_neg hA, getItem_foldl_removeItem]
  rw [if_neg ?_]
  intro hmem
  rcases List.mem_append.mp hmem with hmem | h4'
  · rcases List.mem_append.mp hmem with hmem | h3'
    · rcases List.mem_append.mp hmem with h1' | h2'
      · exact h1 h1'
      · exact h2 h2'
    · exact h3 h3'
  · exact h4 h4'
/-- Claim C5 (amended): after clear(), no key containing the fixed cache
stem or the client id remains in the persistent or temporary backends;
every temporary key containing neither is left with its value unchanged;
and every persistent key containing neither is left unchanged provided it
is also not an app-metadata entry and not listed in the account-key or
token-key indexes — the entity keys that the account/credential removal
phase may delete even though they carry neither the stem nor the client
id, as the counterexample below exercises. -/
theorem c5_clear_scoping (m : Manager) (st : CacheState) :
    (∀ k, clearCond m k = true → k ∉ (clear m st).browserStorage.getKeys)
  ∧ (∀ k, clearCond m k = true → k ∉ (clear m st).temporaryCacheStorage.getKeys)
  ∧ (∀ k, clearCond m k = false →
       (clear m st).temporaryCacheStorage.getItem k
         = st.temporaryCacheStorage.getItem k)
  ∧ (∀ k, clearCond m k = false →
       strContains k APP_METADATA_MARK = false →
       k ∉ getAccountKeys st →
       k ∉ (getTokenKeys m st).idToken →
       k ∉ (getTokenKeys m st).accessToken →
       k ∉ (getTokenKeys m st).refreshToken →
       (clear m st).browserStorage.getItem k = st.browserStorage.getItem k) := by
  have htemp : ∀ k, (clear m st).temporaryCacheStorage.getItem k
      = if clearCond m k = true ∧ k ∈ st.temporaryCacheStorage.getKeys then none
        else st.temporaryCacheStorage.getItem k := by
    intro k
    rw [clear_temp_eq, clearTempScan_temp_getItem, removeAppMetadata_temp,
      removeAllAccounts_temp]
  have hbrow : ∀ k, (clear m st).browserStorage.getItem k
      = if clearCond m k = true ∧
            k ∈ (clearTempScan m (removeAppMetadata (removeAllAccounts m st))).browserStorage.getKeys
        then none
        else (clearTempScan m (removeAppMetadata (removeAllAccounts m st))).browserStorage.getItem k := by
    intro k
    rw [clear_browser_eq, clearBrowserScan_getItem]
  refine ⟨?_, ?_, ?_, ?_⟩
  · intro k hc
    apply (Store.getItem_eq_none_iff _ _).mp
    by_cases hmem : k ∈ (clearTempScan m (removeAppMetadata (removeAllAccounts m st))).browserStorage.getKeys
    · rw [hbrow k, if_pos ⟨hc, hmem⟩]
    · rw [hbrow k, if_neg (fun hx => hmem hx.2)]
      exact (Store.getItem_eq_none_iff _ _).mpr hmem
  · intro k hc
    apply (Store.getItem_eq_none_iff _ _).mp
    by_cases hmem : k ∈ st.temporaryCacheStorage.getKeys
    · rw [htemp k, if_pos ⟨hc, hmem⟩]
    · rw [htemp k, if_neg (fun hx => hmem hx.2)]
      exact (Store.getItem_eq_none_iff _ _).mpr hmem
  · intro k hc
    rw [htemp k, if_neg (fun hx => absurd hx.1 (by simp [hc]))]
  · intro k hc hmeta h1 h2 h3 h4
    have hbase : strContains k cacheKeyBase = false := by
      unfold clearCond at hc
      exact (Bool.or_eq_false_iff.mp hc).1
    have hA : k ≠ ACCOUNT_KEYS := by
      intro he
      have hacc : strContains ACCOUNT_KEYS cacheKeyBase = true := by decide
      rw [he, hacc] at hbase
      cases hbase
    have hT : k ≠ tokenKeysSlot m := by
      intro he
      rw [he, tokenKeysSlot_contains_base m] at hbase
      cases hbase
    rw [hbrow k, if_neg (fun hx => absurd hx.1 (by simp [hc]))]
    rw [clearTempScan_browser]
    rw [removeAppMetadata_browser_getItem]
    rw [if_neg (fun hx => absurd hx.1 (by simp [hmeta]))]
    exact removeAllAccounts_browser_getItem_other m st k hA hT h1 h2 h3 h4
/-- Counterexample for C5 as stated: the indexed account entity key
uid-env-realm contains neither the fixed cache stem nor the client id, yet
clear() removes its entry, because the account-removal phase deletes every
indexed account regardless of key shape. -/
theorem c5_clear_scoping_counterexample :
    clearCond mgrDefault "uid-env-realm" = false ∧
    c5CounterState.browserStorage.getItem "uid-env-realm"
      = some (CacheValue.obj accountRequiredFields) ∧
    (clear mgrDefault c5CounterState).browserStorage.getItem "uid-env-realm"
      = none := by
  refine ⟨by decide, by decide, by decide⟩
/-- Witness for C5: a persistent key matching none of the removal criteria
keeps its value across clear(). -/
theorem c5_clear_scoping_witness :
    (clearCond mgrDefault "unrelated" = false ∧
     strContains "unrelated" APP_METADATA_MARK = false ∧
     "unrelated" ∉ getAccountKeys c5CounterState) ∧
    (clear mgrDefault c5CounterState).browserStorage.getItem "unrelated"
      = c5CounterState.browserStorage.getItem "unrelated" :=
  ⟨⟨by decide, by decide, by decide⟩,
   (c5_clear_scoping mgrDefault c5CounterState).2.2.2 "unrelated"
     (by decide) (by decide) (by decide) (by decide) (by decide) (by decide)⟩
